import Mathlib

/-!
Shallow embedding of the CMP memory-system simulator
(cache.cpp, memsys.cpp, dram.cpp) and proofs about its
replacement policies, writeback discipline, DRAM timing model and
virtual-to-physical translation.

Machine integers are modelled as Nat, with an explicit reduction
modulo 2^32 exactly where the C code narrows a value to a 32-bit
unsigned (the ways_per_core counters and the reconstructed
evicted-line addresses), since those narrowings are observable.
-/

/-- 2^32, the modulus of the C type unsigned int. -/
def U32 : Nat := 4294967296

/-- Increment of a 32-bit unsigned counter. -/
def incr32 (n : Nat) : Nat := (n + 1) % U32

/-- Decrement of a 32-bit unsigned counter (wrapping, as in C). -/
def decr32 (n : Nat) : Nat := (n + (U32 - 1)) % U32

/-- Replacement policies of cache.h. -/
inductive ReplacementPolicy where
  | LRU
  | RANDOM
  | SWP
  | DWP
deriving DecidableEq, Repr

/-- Result of a cache access (cache.h). -/
inductive CacheResult where
  | HIT
  | MISS
deriving DecidableEq, Repr

/-- One cache line (struct CacheLine of cache.h). -/
structure CacheLine where
  valid : Bool
  dirty : Bool
  tag : Nat
  coreID : Nat
  lastAccessTime : Nat
deriving DecidableEq, Repr

/-- The all-zero cache line produced by calloc. -/
def line0 : CacheLine := ⟨false, false, 0, 0, 0⟩

/-- Per-set utility monitor (struct UMON of cache.h). -/
structure UMON where
  totalHits : List Nat
  totalMisses : Nat
deriving DecidableEq, Repr

/-- The zeroed utility monitor: 16 per-way hit counters and a miss counter. -/
def umon0 : UMON := ⟨List.replicate 16 0, 0⟩

/-- One cache set (struct CacheSet of cache.h): the ways, the per-core
valid-line counters, and the utility monitor. -/
structure CacheSet where
  row : List CacheLine
  ways_per_core : List Nat
  umon : UMON
deriving DecidableEq, Repr

/-- The zeroed cache set used as the out-of-range default of list reads. -/
def set0 : CacheSet := ⟨[], [0, 0], umon0⟩

/-- A cache module (struct Cache of cache.h). -/
structure Cache where
  cacheGrid : List CacheSet
  ways : Nat
  sets : Nat
  policy : ReplacementPolicy
  lastEvictedLine : CacheLine
  index_mask : Nat
  index_bits : Nat
  stat_read_access : Nat
  stat_read_miss : Nat
  stat_write_access : Nat
  stat_write_miss : Nat
  stat_dirty_evicts : Nat
deriving DecidableEq, Repr

/-- Read way i of a set row; C array indexing, with a zero line as the
out-of-range default. -/
def rowGet (row : List CacheLine) (i : Nat) : CacheLine := row.getD i line0

/-- Read the per-core way counter of a set. -/
def wpcGet (s : CacheSet) (c : Nat) : Nat := s.ways_per_core.getD c 0

/-- Read set s of the cache grid. -/
def setGet (c : Cache) (s : Nat) : CacheSet := c.cacheGrid.getD s set0

/-- Read one per-way hit counter of a utility monitor. -/
def umonHitsGet (u : UMON) (i : Nat) : Nat := u.totalHits.getD i 0

/-- Structural floor of log2 with explicit fuel, mirroring the value of the
C expression static cast to unsigned of std::log2. -/
def log2fuel : Nat → Nat → Nat
  | 0, _ => 0
  | fuel + 1, n => if 2 ≤ n then log2fuel fuel (n / 2) + 1 else 0

/-- Floor of log2, total and kernel-reducible. -/
def natLog2 (n : Nat) : Nat := log2fuel n n

/-- cache_new of cache.cpp: allocate and initialize a cache. -/
def cache_new (size associativity line_size : Nat)
    (replacement_policy : ReplacementPolicy) : Cache :=
  let ways := associativity
  let sets := (size / line_size) / associativity
  let index_bits := natLog2 sets
  { cacheGrid := List.replicate sets
      { row := List.replicate ways line0
        ways_per_core := [0, 0]
        umon := umon0 }
    ways := ways
    sets := sets
    policy := replacement_policy
    lastEvictedLine := line0
    index_mask := (1 <<< index_bits) - 1
    index_bits := index_bits
    stat_read_access := 0
    stat_read_miss := 0
    stat_write_access := 0
    stat_write_miss := 0
    stat_dirty_evicts := 0 }

/-- First index i in the half-open scan window with p i true; models the C
idiom for i = start; i < start + fuel; i++ with an early return. -/
def firstMatch (p : Nat → Bool) : Nat → Nat → Option Nat
  | 0, _ => none
  | fuel + 1, i => if p i = true then some i else firstMatch p fuel (i + 1)

/-- cache_access of cache.cpp. Takes the current cycle as an argument
(the C code reads the global current_cycle) and returns the updated cache
together with HIT or MISS. -/
def cache_access (c : Cache) (line_addr : Nat) (is_write : Bool)
    (core_id : Nat) (cycle : Nat) : Cache × CacheResult :=
  let set_to_check := line_addr &&& c.index_mask
  let tag_to_check := line_addr >>> c.index_bits
  let c1 := if is_write then { c with stat_write_access := c.stat_write_access + 1 }
            else { c with stat_read_access := c.stat_read_access + 1 }
  let set := setGet c1 set_to_check
  match firstMatch (fun i =>
      (rowGet set.row i).valid && ((rowGet set.row i).coreID == core_id)
        && ((rowGet set.row i).tag == tag_to_check)) c1.ways 0 with
  | some i =>
    let ln := rowGet set.row i
    let ln1 := if is_write then { ln with dirty := true } else ln
    let ln2 := { ln1 with lastAccessTime := cycle }
    let set1 := { set with
      row := set.row.set i ln2
      umon := { set.umon with
        totalHits := set.umon.totalHits.set i (umonHitsGet set.umon i + 1) } }
    ({ c1 with cacheGrid := c1.cacheGrid.set set_to_check set1 }, CacheResult.HIT)
  | none =>
    let c2 := if is_write then { c1 with stat_write_miss := c1.stat_write_miss + 1 }
              else { c1 with stat_read_miss := c1.stat_read_miss + 1 }
    let set1 := { set with
      umon := { set.umon with totalMisses := set.umon.totalMisses + 1 } }
    ({ c2 with cacheGrid := c2.cacheGrid.set set_to_check set1 }, CacheResult.MISS)

/-- The scan of the C victim loops: starting from an accumulator pair of a
candidate way and its timestamp, walk the window and move to any way that
satisfies p and has a strictly smaller lastAccessTime. -/
def scanOldestFrom (row : List CacheLine) (p : CacheLine → Bool) :
    Nat → Nat → Nat × Nat → Nat × Nat
  | 0, _, acc => acc
  | fuel + 1, i, acc =>
    let ln := rowGet row i
    if p ln = true ∧ ln.lastAccessTime < acc.2 then
      scanOldestFrom row p fuel (i + 1) (i, ln.lastAccessTime)
    else
      scanOldestFrom row p fuel (i + 1) acc

/-- The SWP and DWP victim scan of cache.cpp: find the first way whose
coreID equals the target core, then from that point keep the way of the
target core with the smallest lastAccessTime; 0 if no way matches. -/
def swpVictimScan (row : List CacheLine) (ways target : Nat) : Nat :=
  match firstMatch (fun i => (rowGet row i).coreID == target) ways 0 with
  | none => 0
  | some i0 =>
    (scanOldestFrom row (fun ln => ln.coreID == target) (ways - i0) i0
      (i0, (rowGet row i0).lastAccessTime)).1

/-- cache_find_victim of cache.cpp. swpQ is the global SWP_CORE0_WAYS.
dwpQ stands for the global DWP_CORE0_WAYS as it reads after the DWP branch
has recomputed it; the recomputation itself multiplies the per-core hit and
miss counters by the double constants 0.7 and 0.3, so the quota value is
taken as an input here rather than recomputed in exact arithmetic.
rand models the value of the C call rand() for the RANDOM policy. -/
def cache_find_victim (c : Cache) (set_index core_id : Nat)
    (swpQ dwpQ rand : Nat) : Nat :=
  let set := setGet c set_index
  match firstMatch (fun i => !(rowGet set.row i).valid) c.ways 0 with
  | some i => i
  | none =>
    match c.policy with
    | ReplacementPolicy.LRU =>
      (scanOldestFrom set.row (fun _ => true) c.ways 0
        (0, (rowGet set.row 0).lastAccessTime)).1
    | ReplacementPolicy.RANDOM => rand % c.ways
    | ReplacementPolicy.SWP =>
      let core_to_assign := if wpcGet set 0 < swpQ then 1 else core_id
      swpVictimScan set.row c.ways core_to_assign
    | ReplacementPolicy.DWP =>
      let core_to_assign := if wpcGet set 0 < dwpQ then 1 else core_id
      swpVictimScan set.row c.ways core_to_assign

/-- cache_install of cache.cpp. The evicted line is snapshotted into
lastEvictedLine; a valid dirty eviction bumps stat_dirty_evicts; the
per-core way counters are adjusted with 32-bit unsigned arithmetic; the
new line is written with dirty equal to is_write. -/
def cache_install (c : Cache) (line_addr : Nat) (is_write : Bool)
    (core_id : Nat) (cycle swpQ dwpQ rand : Nat) : Cache :=
  let set_to_add := (line_addr &&& c.index_mask) % c.sets
  let i := cache_find_victim c set_to_add core_id swpQ dwpQ rand
  let set := setGet c set_to_add
  let evicted := rowGet set.row i
  let c1 := { c with lastEvictedLine := evicted }
  let c2 := if evicted.valid = true ∧ evicted.dirty = true then
      { c1 with stat_dirty_evicts := c1.stat_dirty_evicts + 1 } else c1
  let set1 := if evicted.valid = true then
      { set with ways_per_core :=
          set.ways_per_core.set evicted.coreID (decr32 (wpcGet set evicted.coreID)) }
    else set
  let newLine : CacheLine :=
    { valid := true
      dirty := is_write
      tag := line_addr >>> c.index_bits
      coreID := core_id
      lastAccessTime := cycle }
  let set2 := { set1 with
    row := set1.row.set i newLine
    ways_per_core := set1.ways_per_core.set core_id (incr32 (wpcGet set1 core_id)) }
  { c2 with cacheGrid := c2.cacheGrid.set set_to_add set2 }

/-- DRAM page policies (dram.h). -/
inductive DRAMPolicy where
  | OPEN_PAGE
  | CLOSE_PAGE
deriving DecidableEq, Repr

/-- Simulation modes (types.h): A, B, C and the combined D/E/F mode. -/
inductive Mode where
  | A
  | B
  | C
  | DEF
deriving DecidableEq, Repr

/-- Access types of the trace (types.h). -/
inductive AccessType where
  | IFETCH
  | LOAD
  | STORE
deriving DecidableEq, Repr

/-- Per-bank row buffer (dram.h). -/
structure RowBuffer where
  valid : Bool
  rowID : Nat
deriving DecidableEq, Repr

/-- A DRAM module (dram.h): 16 per-bank row buffers plus statistics. -/
structure DRAM where
  rowbuf : List RowBuffer
  bank_bits : Nat
  stat_read_access : Nat
  stat_read_delay : Nat
  stat_write_access : Nat
  stat_write_delay : Nat
deriving DecidableEq, Repr

/-- dram_new of dram.cpp: 16 banks, all row buffers invalid, bank_bits 4. -/
def dram_new : DRAM :=
  { rowbuf := List.replicate 16 ⟨false, 0⟩
    bank_bits := 4
    stat_read_access := 0
    stat_read_delay := 0
    stat_write_access := 0
    stat_write_delay := 0 }

/-- dram_access_mode_CDEF of dram.cpp. The row number is the line address
shifted right by bank_bits and narrowed to unsigned; the bank is the row
modulo NUM_BANKS = 16. The page policy is the global DRAM_PAGE_POLICY,
taken as an argument. -/
def dram_access_mode_CDEF (dram : DRAM) (line_addr : Nat)
    (_is_dram_write : Bool) (pagePolicy : DRAMPolicy) : DRAM × Nat :=
  let row_no := (line_addr >>> dram.bank_bits) % U32
  let bank_no := row_no % 16
  let rb := dram.rowbuf.getD bank_no ⟨false, 0⟩
  match pagePolicy with
  | DRAMPolicy.OPEN_PAGE =>
    if rb.valid = true then
      if rb.rowID = row_no then (dram, 10 + 45)
      else
        ({ dram with rowbuf := dram.rowbuf.set bank_no { rb with rowID := row_no } },
          10 + (45 + 45 + 45))
    else
      ({ dram with rowbuf :=
          dram.rowbuf.set bank_no { rb with rowID := row_no, valid := true } },
        10 + (45 + 45))
  | DRAMPolicy.CLOSE_PAGE =>
    ({ dram with rowbuf :=
        dram.rowbuf.set bank_no { rb with rowID := row_no, valid := false } },
      10 + (45 + 45))

/-- dram_access of dram.cpp: a flat 100-cycle delay in mode B, the
row-buffer model otherwise, plus the statistics update. -/
def dram_access (dram : DRAM) (line_addr : Nat) (is_dram_write : Bool)
    (simMode : Mode) (pagePolicy : DRAMPolicy) : DRAM × Nat :=
  let r :=
    if simMode = Mode.B then (dram, 100)
    else dram_access_mode_CDEF dram line_addr is_dram_write pagePolicy
  let d1 := r.1
  let delay := r.2
  if is_dram_write then
    ({ d1 with stat_write_access := d1.stat_write_access + 1
               stat_write_delay := d1.stat_write_delay + delay }, delay)
  else
    ({ d1 with stat_read_access := d1.stat_read_access + 1
               stat_read_delay := d1.stat_read_delay + delay }, delay)

/-- The memory system (memsys.h): single-core L1 caches, the per-core L1
caches of modes D/E/F, the shared L2, the DRAM, and the per-type counters. -/
structure MemorySystem where
  dcache : Cache
  icache : Cache
  dcache_coreid : List Cache
  icache_coreid : List Cache
  l2cache : Cache
  dram : DRAM
  stat_ifetch_access : Nat
  stat_load_access : Nat
  stat_store_access : Nat
  stat_ifetch_delay : Nat
  stat_load_delay : Nat
  stat_store_delay : Nat
deriving Repr

/-- Observable memory traffic below the L1 caches: one event per call of
memsys_l2_access (with its writeback flag) and one per call of
dram_access (with its write flag). -/
inductive MemEvent where
  | l2access (line_addr : Nat) (is_writeback : Bool)
  | dram (line_addr : Nat) (is_write : Bool)
deriving DecidableEq, Repr

/-- The addresses of the L2 accesses of an event list that carry the
writeback flag. -/
def wbL2List : List MemEvent → List Nat
  | [] => []
  | MemEvent.l2access a true :: rest => a :: wbL2List rest
  | _ :: rest => wbL2List rest

/-- The addresses of the DRAM accesses of an event list that are writes. -/
def dramWriteList : List MemEvent → List Nat
  | [] => []
  | MemEvent.dram a true :: rest => a :: dramWriteList rest
  | _ :: rest => dramWriteList rest

/-- memsys_l2_access of memsys.cpp. Delay starts at the L2 hit latency 10;
the L2 lookup and, on a miss, the L2 install both receive is_writeback as
their write flag; a miss adds the DRAM read delay, and a valid dirty line
evicted by the L2 install issues a DRAM write at the reconstructed address,
narrowed to unsigned, whose delay is discarded. Also returns the list of
L2 and DRAM events of the call. -/
def memsys_l2_access (sys : MemorySystem) (line_addr : Nat)
    (is_writeback : Bool) (core_id : Nat) (simMode : Mode)
    (pagePolicy : DRAMPolicy) (cycle swpQ dwpQ rand : Nat) :
    MemorySystem × Nat × List MemEvent :=
  let acc := cache_access sys.l2cache line_addr is_writeback core_id cycle
  let sys1 := { sys with l2cache := acc.1 }
  match acc.2 with
  | CacheResult.HIT =>
    (sys1, 10, [MemEvent.l2access line_addr is_writeback])
  | CacheResult.MISS =>
    let dr := dram_access sys1.dram line_addr false simMode pagePolicy
    let dramDelay := dr.2
    let l2b := cache_install sys1.l2cache line_addr is_writeback core_id cycle swpQ dwpQ rand
    let sys2 := { sys1 with dram := dr.1, l2cache := l2b }
    if l2b.lastEvictedLine.valid = true ∧ l2b.lastEvictedLine.dirty = true then
      let index := (line_addr &&& l2b.index_mask) % U32
      let evicted_address := ((l2b.lastEvictedLine.tag <<< l2b.index_bits) ||| index) % U32
      let d2 := (dram_access sys2.dram evicted_address true simMode pagePolicy).1
      ({ sys2 with dram := d2 }, 10 + dramDelay,
        [MemEvent.l2access line_addr is_writeback,
         MemEvent.dram line_addr false,
         MemEvent.dram evicted_address true])
    else
      (sys2, 10 + dramDelay,
        [MemEvent.l2access line_addr is_writeback,
         MemEvent.dram line_addr false])

/-- Which L1 cache the mode B/C and mode D/E/F dispatch selects. -/
inductive L1Sel where
  | ic
  | dc
  | icCore (k : Nat)
  | dcCore (k : Nat)
deriving DecidableEq, Repr

/-- The default cache standing in for an unallocated cache pointer. -/
def cacheDefault : Cache := cache_new 64 1 64 ReplacementPolicy.LRU

/-- Read the selected L1 cache of the memory system. -/
def getL1 (sys : MemorySystem) : L1Sel → Cache
  | L1Sel.ic => sys.icache
  | L1Sel.dc => sys.dcache
  | L1Sel.icCore k => sys.icache_coreid.getD k cacheDefault
  | L1Sel.dcCore k => sys.dcache_coreid.getD k cacheDefault

/-- Write the selected L1 cache back into the memory system. -/
def setL1 (sys : MemorySystem) (sel : L1Sel) (c : Cache) : MemorySystem :=
  match sel with
  | L1Sel.ic => { sys with icache := c }
  | L1Sel.dc => { sys with dcache := c }
  | L1Sel.icCore k => { sys with icache_coreid := sys.icache_coreid.set k c }
  | L1Sel.dcCore k => { sys with dcache_coreid := sys.dcache_coreid.set k c }

/-- The shared body of memsys_access_modeBC and memsys_access_modeDEF after
the cache pointer, write flag and hit latency have been chosen: access the
L1; on a miss, access the L2 (not a writeback), install into the L1, and,
for loads and stores only, if the line evicted by that install is valid and
dirty, reconstruct its address (narrowed to unsigned) and issue an L2
writeback access whose delay is discarded. Returns the delay beyond the L1
hit latency and the L2 and DRAM events. rand1, rand2 and rand3 model the
successive rand() draws of a RANDOM-policy L2 install, L1 install, and
L2 writeback install. -/
def memsys_l1_flow (sys : MemorySystem) (sel : L1Sel) (line_addr : Nat)
    (is_write isIfetch : Bool) (core_id : Nat) (simMode : Mode)
    (pagePolicy : DRAMPolicy) (cycle swpQ dwpQ rand1 rand2 rand3 : Nat) :
    MemorySystem × Nat × List MemEvent :=
  let acc := cache_access (getL1 sys sel) line_addr is_write core_id cycle
  let sys1 := setL1 sys sel acc.1
  match acc.2 with
  | CacheResult.HIT => (sys1, 0, [])
  | CacheResult.MISS =>
    let r2 :=
      memsys_l2_access sys1 line_addr false core_id simMode pagePolicy cycle swpQ dwpQ rand1
    let sys2 := r2.1
    let l2delay := r2.2.1
    let ev1 := r2.2.2
    let c2 := cache_install (getL1 sys2 sel) line_addr is_write core_id cycle swpQ dwpQ rand2
    let sys3 := setL1 sys2 sel c2
    if isIfetch = false ∧ c2.lastEvictedLine.valid = true ∧
        c2.lastEvictedLine.dirty = true then
      let index := (line_addr &&& c2.index_mask) % U32
      let evicted_address :=
        (((c2.lastEvictedLine.tag <<< c2.index_bits) % U32) ||| index)
      let r3 :=
        memsys_l2_access sys3 evicted_address true core_id simMode pagePolicy cycle swpQ dwpQ rand3
      (r3.1, l2delay, ev1 ++ r3.2.2)
    else
      (sys3, l2delay, ev1)

/-- memsys_access_modeA of memsys.cpp: instruction fetches are ignored;
loads and stores access the single data cache and install on a miss; the
returned delay is always 0. -/
def memsys_access_modeA (sys : MemorySystem) (line_addr : Nat)
    (typ : AccessType) (core_id : Nat) (cycle swpQ dwpQ rand : Nat) :
    MemorySystem × Nat :=
  match typ with
  | AccessType.IFETCH => (sys, 0)
  | AccessType.LOAD =>
    let acc := cache_access sys.dcache line_addr false core_id cycle
    let c2 := if acc.2 = CacheResult.MISS then
        cache_install acc.1 line_addr false core_id cycle swpQ dwpQ rand
      else acc.1
    ({ sys with dcache := c2 }, 0)
  | AccessType.STORE =>
    let acc := cache_access sys.dcache line_addr true core_id cycle
    let c2 := if acc.2 = CacheResult.MISS then
        cache_install acc.1 line_addr true core_id cycle swpQ dwpQ rand
      else acc.1
    ({ sys with dcache := c2 }, 0)

/-- memsys_access_modeBC of memsys.cpp: pick the L1 by access type
(IFETCH to the icache, LOAD and STORE to the dcache), charge the 1-cycle
L1 hit latency, and run the shared miss path. -/
def memsys_access_modeBC (sys : MemorySystem) (line_addr : Nat)
    (typ : AccessType) (core_id : Nat) (simMode : Mode)
    (pagePolicy : DRAMPolicy) (cycle swpQ dwpQ rand1 rand2 rand3 : Nat) :
    MemorySystem × Nat × List MemEvent :=
  match typ with
  | AccessType.IFETCH =>
    let r := memsys_l1_flow sys L1Sel.ic line_addr false true core_id
      simMode pagePolicy cycle swpQ dwpQ rand1 rand2 rand3
    (r.1, 1 + r.2.1, r.2.2)
  | AccessType.LOAD =>
    let r := memsys_l1_flow sys L1Sel.dc line_addr false false core_id
      simMode pagePolicy cycle swpQ dwpQ rand1 rand2 rand3
    (r.1, 1 + r.2.1, r.2.2)
  | AccessType.STORE =>
    let r := memsys_l1_flow sys L1Sel.dc line_addr true false core_id
      simMode pagePolicy cycle swpQ dwpQ rand1 rand2 rand3
    (r.1, 1 + r.2.1, r.2.2)

/-- memsys_convert_vpn_to_pfn of memsys.cpp. The low 20 VPN bits are kept,
the core id is shifted to bit 21 in 32-bit unsigned arithmetic, and the
high VPN bits are shifted to bit 21 in 64-bit arithmetic. -/
def memsys_convert_vpn_to_pfn (vpn core_id : Nat) : Nat :=
  let tail := vpn &&& 0xfffff
  let head := vpn >>> 20
  tail + ((core_id <<< 21) % U32) + (head <<< 21)

/-- memsys_access_modeDEF of memsys.cpp: translate the virtual line address
to a physical one, pick the per-core L1 by access type, charge the 1-cycle
L1 hit latency, and run the shared miss path on the physical address. -/
def memsys_access_modeDEF (sys : MemorySystem) (v_line_addr : Nat)
    (typ : AccessType) (core_id : Nat) (line_size : Nat) (simMode : Mode)
    (pagePolicy : DRAMPolicy) (cycle swpQ dwpQ rand1 rand2 rand3 : Nat) :
    MemorySystem × Nat × List MemEvent :=
  let offset_bits := natLog2 4096 - natLog2 line_size
  let offset_mask := (1 <<< offset_bits) - 1
  let vfn := v_line_addr >>> offset_bits
  let pfn := memsys_convert_vpn_to_pfn vfn core_id
  let p_line_addr := (pfn <<< offset_bits) ||| (v_line_addr &&& offset_mask)
  match typ with
  | AccessType.IFETCH =>
    let r := memsys_l1_flow sys (L1Sel.icCore core_id) p_line_addr false true core_id
      simMode pagePolicy cycle swpQ dwpQ rand1 rand2 rand3
    (r.1, 1 + r.2.1, r.2.2)
  | AccessType.LOAD =>
    let r := memsys_l1_flow sys (L1Sel.dcCore core_id) p_line_addr false false core_id
      simMode pagePolicy cycle swpQ dwpQ rand1 rand2 rand3
    (r.1, 1 + r.2.1, r.2.2)
  | AccessType.STORE =>
    let r := memsys_l1_flow sys (L1Sel.dcCore core_id) p_line_addr true false core_id
      simMode pagePolicy cycle swpQ dwpQ rand1 rand2 rand3
    (r.1, 1 + r.2.1, r.2.2)

/-- The memory system memsys_new builds in mode A: only the data cache is
allocated; the remaining components stay untouched (NULL pointers in C)
and are represented by placeholder values that mode A never reads. -/
def memsys_new_modeA (dsize dassoc line_size : Nat)
    (repl : ReplacementPolicy) : MemorySystem :=
  { dcache := cache_new dsize dassoc line_size repl
    icache := cacheDefault
    dcache_coreid := []
    icache_coreid := []
    l2cache := cacheDefault
    dram := dram_new
    stat_ifetch_access := 0
    stat_load_access := 0
    stat_store_access := 0
    stat_ifetch_delay := 0
    stat_load_delay := 0
    stat_store_delay := 0 }

/-- memsys_access of memsys.cpp: convert the byte address to a line
address, dispatch on the simulation mode, and update the per-type counters
and delays. -/
def memsys_access (sys : MemorySystem) (addr : Nat) (typ : AccessType)
    (core_id : Nat) (simMode : Mode) (line_size : Nat)
    (pagePolicy : DRAMPolicy) (cycle swpQ dwpQ rand1 rand2 rand3 : Nat) :
    MemorySystem × Nat :=
  let line_addr := addr / line_size
  let r :=
    match simMode with
    | Mode.A => memsys_access_modeA sys line_addr typ core_id cycle swpQ dwpQ rand2
    | Mode.B =>
      let r := memsys_access_modeBC sys line_addr typ core_id simMode pagePolicy
        cycle swpQ dwpQ rand1 rand2 rand3
      (r.1, r.2.1)
    | Mode.C =>
      let r := memsys_access_modeBC sys line_addr typ core_id simMode pagePolicy
        cycle swpQ dwpQ rand1 rand2 rand3
      (r.1, r.2.1)
    | Mode.DEF =>
      let r := memsys_access_modeDEF sys line_addr typ core_id line_size simMode
        pagePolicy cycle swpQ dwpQ rand1 rand2 rand3
      (r.1, r.2.1)
  let sys1 := r.1
  let delay := r.2
  match typ with
  | AccessType.IFETCH =>
    ({ sys1 with stat_ifetch_access := sys1.stat_ifetch_access + 1
                 stat_ifetch_delay := sys1.stat_ifetch_delay + delay }, delay)
  | AccessType.LOAD =>
    ({ sys1 with stat_load_access := sys1.stat_load_access + 1
                 stat_load_delay := sys1.stat_load_delay + delay }, delay)
  | AccessType.STORE =>
    ({ sys1 with stat_store_access := sys1.stat_store_access + 1
                 stat_store_delay := sys1.stat_store_delay + delay }, delay)

/-!  Concrete scenario of claim C2: mode A, a 64-byte direct-mapped cache
with one 64-byte line, trace LOAD 0x0, LOAD 0x0, STORE 0x40, LOAD 0x0,
one reference per cycle. -/

/-- The mode-A memory system of the C2 scenario. -/
def c2sys0 : MemorySystem := memsys_new_modeA 64 1 64 ReplacementPolicy.LRU

/-- One driver step of the C2 scenario: a mode-A reference at a byte
address on core 0 at the given cycle. -/
def c2step (sys : MemorySystem) (typ : AccessType) (addr cycle : Nat) :
    MemorySystem :=
  (memsys_access sys addr typ 0 Mode.A 64 DRAMPolicy.OPEN_PAGE cycle 0 0 0 0 0).1

/-- The state after the four references of the C2 trace. -/
def c2sys4 : MemorySystem :=
  c2step (c2step (c2step (c2step c2sys0 AccessType.LOAD 0 1)
    AccessType.LOAD 0 2) AccessType.STORE 0x40 3) AccessType.LOAD 0 4

/-!  Concrete scenario of claim C6: mode C, open-page DRAM, four reads at
line addresses 80, 80, 112, 80, whose row numbers are 5, 5, 7, 5. -/

/-- The four successive DRAM reads of the C6 scenario. -/
def c6read1 : DRAM × Nat := dram_access dram_new 80 false Mode.C DRAMPolicy.OPEN_PAGE

/-- Second read of the C6 scenario. -/
def c6read2 : DRAM × Nat := dram_access c6read1.1 80 false Mode.C DRAMPolicy.OPEN_PAGE

/-- Third read of the C6 scenario. -/
def c6read3 : DRAM × Nat := dram_access c6read2.1 112 false Mode.C DRAMPolicy.OPEN_PAGE

/-- Fourth read of the C6 scenario. -/
def c6read4 : DRAM × Nat := dram_access c6read3.1 80 false Mode.C DRAMPolicy.OPEN_PAGE

/-- The number of ways of a set row holding a valid line owned by core
cid; the quantity the ways_per_core counters are meant to track. -/
def coreCount (row : List CacheLine) (cid : Nat) : Nat :=
  row.countP (fun ln => ln.valid && ln.coreID == cid)

/-- Well-formedness of one cache set: the row has exactly ways lines, the
per-core counter array has its two entries, every valid line is owned by
core 0 or core 1, and each counter equals the count of valid lines of its
core. -/
def SetWF (s : CacheSet) (ways : Nat) : Prop :=
  s.row.length = ways ∧
  s.ways_per_core.length = 2 ∧
  (∀ i, i < ways → (rowGet s.row i).valid = false ∨ (rowGet s.row i).coreID < 2) ∧
  wpcGet s 0 = coreCount s.row 0 ∧
  wpcGet s 1 = coreCount s.row 1

/-- Well-formedness of a cache as cache_new guarantees it for power-of-two
geometries: positive associativity bounded by MAX_WAYS_PER_CACHE_SET, a
power-of-two set count matching index_bits and index_mask, a grid of sets
rows, and every set well formed. -/
def CacheWF (c : Cache) : Prop :=
  0 < c.ways ∧ c.ways ≤ 16 ∧
  c.sets = 2 ^ c.index_bits ∧
  c.index_mask = 2 ^ c.index_bits - 1 ∧
  c.cacheGrid.length = c.sets ∧
  ∀ s, s < c.sets → SetWF (setGet c s) c.ways

/-!  Concrete state used to exhibit the 32-bit narrowing of the
reconstructed writeback address: a direct-mapped single-line L1 data cache
holding a valid dirty line whose tag is 2 to the 32, reachable by a store
to byte address 2 to the 38. -/

/-- A valid dirty line with tag 2 to the 32. -/
def bigDirtyLine : CacheLine := ⟨true, true, 4294967296, 0, 0⟩

/-- A single-set single-way L1 data cache holding bigDirtyLine. -/
def c1dcache : Cache :=
  { cacheGrid := [⟨[bigDirtyLine], [1, 0], umon0⟩]
    ways := 1
    sets := 1
    policy := ReplacementPolicy.LRU
    lastEvictedLine := line0
    index_mask := 0
    index_bits := 0
    stat_read_access := 0
    stat_read_miss := 0
    stat_write_access := 0
    stat_write_miss := 0
    stat_dirty_evicts := 0 }

/-- The mode-B/C memory system of the C1 narrowing scenario. -/
def c1sys : MemorySystem :=
  { dcache := c1dcache
    icache := cacheDefault
    dcache_coreid := []
    icache_coreid := []
    l2cache := cache_new 128 2 64 ReplacementPolicy.LRU
    dram := dram_new
    stat_ifetch_access := 0
    stat_load_access := 0
    stat_store_access := 0
    stat_ifetch_delay := 0
    stat_load_delay := 0
    stat_store_delay := 0 }

/-- The mode-B/C run of the C1 narrowing scenario: LOAD of line address 0
by core 0 against c1sys. -/
def c1run : MemorySystem × Nat × List MemEvent :=
  memsys_access_modeBC c1sys 0 AccessType.LOAD 0 Mode.C DRAMPolicy.OPEN_PAGE 1 0 0 0 0 0

/-!  Concrete full SWP set used as the witness of claim C3. -/

/-- A full two-way SWP set: way 0 owned by core 0 (time 5), way 1 owned by
core 1 (time 2). -/
def swpSetW : CacheSet :=
  ⟨[⟨true, false, 3, 0, 5⟩, ⟨true, false, 4, 1, 2⟩], [1, 1], umon0⟩

/-- A single-set two-way SWP cache holding swpSetW. -/
def swpCacheW : Cache :=
  { cacheGrid := [swpSetW]
    ways := 2
    sets := 1
    policy := ReplacementPolicy.SWP
    lastEvictedLine := line0
    index_mask := 0
    index_bits := 0
    stat_read_access := 0
    stat_read_miss := 0
    stat_write_access := 0
    stat_write_miss := 0
    stat_dirty_evicts := 0 }

/-- The row number a DRAM access computes: the line address shifted by
bank_bits and narrowed to unsigned. -/
def dramRow (d : DRAM) (a : Nat) : Nat := (a >>> d.bank_bits) % U32

/-- The bank a DRAM access selects: the row number modulo NUM_BANKS. -/
def dramBank (d : DRAM) (a : Nat) : Nat := dramRow d a % 16

/-- The row buffer of the bank a DRAM access selects. -/
def dramRB (d : DRAM) (a : Nat) : RowBuffer := d.rowbuf.getD (dramBank d a) ⟨false, 0⟩

/-!  List helper lemmas. -/

/-- The set index an install writes: the masked address folded by the set
count, as in cache_install. -/
def installSetIdx (c : Cache) (a : Nat) : Nat := (a &&& c.index_mask) % c.sets

/-- The victim way an install overwrites. -/
def installVictim (c : Cache) (a core q1 q2 r : Nat) : Nat :=
  cache_find_victim c (installSetIdx c a) core q1 q2 r

/-- The line an install evicts (the pre-overwrite content of the victim
way). -/
def installEvicted (c : Cache) (a core q1 q2 r : Nat) : CacheLine :=
  rowGet (setGet c (installSetIdx c a)).row (installVictim c a core q1 q2 r)

/-- The per-core way counters after the decrement of the evicted owner
and before the increment of the installing core. -/
def installWpcMid (c : Cache) (a core q1 q2 r : Nat) : List Nat :=
  if (installEvicted c a core q1 q2 r).valid = true then
    (setGet c (installSetIdx c a)).ways_per_core.set
      (installEvicted c a core q1 q2 r).coreID
      (decr32 (wpcGet (setGet c (installSetIdx c a))
        (installEvicted c a core q1 q2 r).coreID))
  else (setGet c (installSetIdx c a)).ways_per_core

instance (s : CacheSet) (ways : Nat) : Decidable (SetWF s ways) := by
  unfold SetWF
  infer_instance

instance (c : Cache) : Decidable (CacheWF c) := by
  unfold CacheWF
  infer_instance

/-- Whether an L1 selector refers to an existing cache of the memory
system (a non-NULL pointer in the C code). -/
def selOK (sys : MemorySystem) : L1Sel → Prop
  | L1Sel.ic => True
  | L1Sel.dc => True
  | L1Sel.icCore k => k < sys.icache_coreid.length
  | L1Sel.dcCore k => k < sys.dcache_coreid.length

/-- The physical line address memsys_access_modeDEF computes from a
virtual line address: translate the VPN and splice the page offset back. -/
def defPhysAddr (v_line_addr core_id line_size : Nat) : Nat :=
  (memsys_convert_vpn_to_pfn (v_line_addr >>> (natLog2 4096 - natLog2 line_size))
      core_id <<< (natLog2 4096 - natLog2 line_size)) |||
    (v_line_addr &&& ((1 <<< (natLog2 4096 - natLog2 line_size)) - 1))

theorem getD_set_self {α : Type} (l : List α) (i : Nat) (a d : α)
    (h : i < l.length) : (l.set i a).getD i d = a := by
  induction l generalizing i with
  | nil => simp at h
  | cons x xs ih =>
    cases i with
    | zero => rfl
    | succ n =>
      have hn : n < xs.length := by simpa using h
      simpa [List.getD] using ih n hn

theorem getD_set_other {α : Type} (l : List α) (i j : Nat) (a d : α)
    (h : i ≠ j) : (l.set i a).getD j d = l.getD j d := by
  induction l generalizing i j with
  | nil => simp
  | cons x xs ih =>
    cases i with
    | zero =>
      cases j with
      | zero => exact absurd rfl h
      | succ m => rfl
    | succ n =>
      cases j with
      | zero => rfl
      | succ m =>
        have hnm : n ≠ m := by omega
        simpa [List.getD] using ih n m hnm

theorem countP_set_balance {α : Type} (p : α → Bool) (l : List α) (i : Nat)
    (a d : α) (h : i < l.length) :
    (l.set i a).countP p + (if p (l.getD i d) = true then 1 else 0) =
      l.countP p + (if p a = true then 1 else 0) := by
  induction l generalizing i with
  | nil => simp at h
  | cons x xs ih =>
    cases i with
    | zero =>
      simp only [List.set, List.countP_cons, List.getD]
      by_cases hx : p x = true <;> by_cases ha : p a = true <;>
        simp [hx, ha]
    | succ n =>
      have hn : n < xs.length := by simpa using h
      have := ih n hn
      simp only [List.set, List.countP_cons, List.getD] at *
      by_cases hx : p x = true <;> simp [hx] at * <;> omega

theorem getD_mem {α : Type} (l : List α) (i : Nat) (d : α) (h : i < l.length) :
    l.getD i d ∈ l := by
  induction l generalizing i with
  | nil => simp at h
  | cons x xs ih =>
    cases i with
    | zero => simp [List.getD]
    | succ n =>
      have hn : n < xs.length := by simpa using h
      simpa [List.getD] using Or.inr (ih n hn)

/-!  Specification of the scan loops. -/

theorem firstMatch_some_spec (p : Nat → Bool) :
    ∀ fuel i k, firstMatch p fuel i = some k →
      i ≤ k ∧ k < i + fuel ∧ p k = true ∧ ∀ j, i ≤ j → j < k → p j = false := by
  intro fuel
  induction fuel with
  | zero => intro i k h; simp [firstMatch] at h
  | succ n ih =>
    intro i k h
    simp only [firstMatch] at h
    by_cases hp : p i = true
    · rw [if_pos hp] at h
      cases h
      exact ⟨Nat.le_refl _, by omega, hp, fun j h1 h2 => by omega⟩
    · rw [if_neg hp] at h
      obtain ⟨h1, h2, h3, h4⟩ := ih (i + 1) k h
      refine ⟨by omega, by omega, h3, ?_⟩
      intro j hj1 hj2
      rcases Nat.eq_or_lt_of_le hj1 with rfl | hlt
      · simpa using hp
      · exact h4 j (by omega) hj2

theorem firstMatch_none_spec (p : Nat → Bool) :
    ∀ fuel i, firstMatch p fuel i = none →
      ∀ j, i ≤ j → j < i + fuel → p j = false := by
  intro fuel
  induction fuel with
  | zero => intro i _ j h1 h2; omega
  | succ n ih =>
    intro i h j hj1 hj2
    simp only [firstMatch] at h
    by_cases hp : p i = true
    · rw [if_pos hp] at h; cases h
    · rw [if_neg hp] at h
      rcases Nat.eq_or_lt_of_le hj1 with rfl | hlt
      · simpa using hp
      · exact ih (i + 1) h j (by omega) (by omega)

theorem scanOldestFrom_spec (row : List CacheLine) (p : CacheLine → Bool) :
    ∀ fuel i idx t, t = (rowGet row idx).lastAccessTime → idx ≤ i →
      (scanOldestFrom row p fuel i (idx, t)).2 =
        (rowGet row (scanOldestFrom row p fuel i (idx, t)).1).lastAccessTime ∧
      ((scanOldestFrom row p fuel i (idx, t)) = (idx, t) ∨
        (i ≤ (scanOldestFrom row p fuel i (idx, t)).1 ∧
         (scanOldestFrom row p fuel i (idx, t)).1 < i + fuel ∧
         p (rowGet row (scanOldestFrom row p fuel i (idx, t)).1) = true ∧
         (scanOldestFrom row p fuel i (idx, t)).2 < t)) ∧
      (∀ j, i ≤ j → j < i + fuel → p (rowGet row j) = true →
        (scanOldestFrom row p fuel i (idx, t)).2 ≤ (rowGet row j).lastAccessTime ∧
        ((rowGet row j).lastAccessTime = (scanOldestFrom row p fuel i (idx, t)).2 →
          (scanOldestFrom row p fuel i (idx, t)).1 ≤ j)) := by
  intro fuel
  induction fuel with
  | zero =>
    intro i idx t ht _
    refine ⟨by simpa [scanOldestFrom] using ht, Or.inl rfl, ?_⟩
    intro j h1 h2
    omega
  | succ n ih =>
    intro i idx t ht hidx
    by_cases hcond : p (rowGet row i) = true ∧ (rowGet row i).lastAccessTime < t
    · have hstep : scanOldestFrom row p (n + 1) i (idx, t) =
          scanOldestFrom row p n (i + 1) (i, (rowGet row i).lastAccessTime) := by
        simp only [scanOldestFrom]
        rw [if_pos hcond]
      obtain ⟨ih1, ih2, ih3⟩ := ih (i + 1) i (rowGet row i).lastAccessTime rfl (by omega)
      rw [hstep]
      refine ⟨ih1, ?_, ?_⟩
      · rcases ih2 with heq | ⟨hb1, hb2, hb3, hb4⟩
        · rw [heq]
          exact Or.inr ⟨Nat.le_refl _, by omega, hcond.1, hcond.2⟩
        · exact Or.inr ⟨by omega, by omega, hb3, by omega⟩
      · intro j hj1 hj2 hjp
        rcases Nat.eq_or_lt_of_le hj1 with rfl | hlt
        · rcases ih2 with heq | ⟨hb1, hb2, hb3, hb4⟩
          · rw [heq]
            exact ⟨Nat.le_refl _, fun _ => Nat.le_refl _⟩
          · exact ⟨by omega, fun he => by omega⟩
        · exact ih3 j (by omega) (by omega) hjp
    · have hstep : scanOldestFrom row p (n + 1) i (idx, t) =
          scanOldestFrom row p n (i + 1) (idx, t) := by
        simp only [scanOldestFrom]
        rw [if_neg hcond]
      obtain ⟨ih1, ih2, ih3⟩ := ih (i + 1) idx t ht (by omega)
      rw [hstep]
      refine ⟨ih1, ?_, ?_⟩
      · rcases ih2 with heq | ⟨hb1, hb2, hb3, hb4⟩
        · exact Or.inl heq
        · exact Or.inr ⟨by omega, by omega, hb3, hb4⟩
      · intro j hj1 hj2 hjp
        rcases Nat.eq_or_lt_of_le hj1 with rfl | hlt
        · have hge : t ≤ (rowGet row i).lastAccessTime := by
            rcases Nat.lt_or_ge (rowGet row i).lastAccessTime t with hl | hg
            · exact absurd ⟨hjp, hl⟩ hcond
            · exact hg
          have hle : (scanOldestFrom row p n (i + 1) (idx, t)).2 ≤ t := by
            rcases ih2 with heq | ⟨_, _, _, hb4⟩
            · rw [heq]
            · exact Nat.le_of_lt hb4
          refine ⟨by omega, ?_⟩
          intro he
          rcases ih2 with heq | ⟨_, _, _, hb4⟩
          · have hidx2 : (scanOldestFrom row p n (i + 1) (idx, t)).1 = idx := by
              rw [heq]
            omega
          · omega
        · exact ih3 j (by omega) (by omega) hjp

theorem swpVictimScan_spec (row : List CacheLine) (ways target : Nat)
    (hmatch : ∃ i, i < ways ∧ (rowGet row i).coreID = target) :
    swpVictimScan row ways target < ways ∧
    (rowGet row (swpVictimScan row ways target)).coreID = target ∧
    ∀ j, j < ways → (rowGet row j).coreID = target →
      (rowGet row (swpVictimScan row ways target)).lastAccessTime ≤
        (rowGet row j).lastAccessTime ∧
      ((rowGet row j).lastAccessTime =
          (rowGet row (swpVictimScan row ways target)).lastAccessTime →
        swpVictimScan row ways target ≤ j) := by
  unfold swpVictimScan
  rcases hfm : firstMatch (fun i => (rowGet row i).coreID == target) ways 0 with _ | i0
  · exfalso
    obtain ⟨i, hi, hc⟩ := hmatch
    have := firstMatch_none_spec _ ways 0 hfm i (by omega) (by omega)
    simp [hc] at this
  · obtain ⟨h0, hlt, hp, hfirst⟩ := firstMatch_some_spec _ ways 0 i0 hfm
    simp only
    obtain ⟨s1, s2, s3⟩ := scanOldestFrom_spec row (fun ln => ln.coreID == target)
      (ways - i0) i0 i0 (rowGet row i0).lastAccessTime rfl (Nat.le_refl i0)
    have hv_core : (rowGet row (scanOldestFrom row (fun ln => ln.coreID == target)
        (ways - i0) i0 (i0, (rowGet row i0).lastAccessTime)).1).coreID = target := by
      rcases s2 with heq | ⟨_, _, hpv, _⟩
      · rw [heq]
        simpa using hp
      · simpa using hpv
    have hv_lt : (scanOldestFrom row (fun ln => ln.coreID == target)
        (ways - i0) i0 (i0, (rowGet row i0).lastAccessTime)).1 < ways := by
      rcases s2 with heq | ⟨_, hb, _, _⟩
      · rw [heq]
        omega
      · omega
    refine ⟨hv_lt, hv_core, ?_⟩
    intro j hj hjc
    rcases Nat.lt_or_ge j i0 with hji | hji
    · exfalso
      have := hfirst j (by omega) hji
      simp [hjc] at this
    · have := s3 j hji (by omega) (by simpa using hjc)
      rw [← s1]
      exact this

theorem swpVictimScan_lt (row : List CacheLine) (ways target : Nat)
    (hw : 0 < ways) : swpVictimScan row ways target < ways := by
  unfold swpVictimScan
  rcases hfm : firstMatch (fun i => (rowGet row i).coreID == target) ways 0 with _ | i0
  · simpa using hw
  · obtain ⟨h0, hlt, hp, hfirst⟩ := firstMatch_some_spec _ ways 0 i0 hfm
    simp only
    obtain ⟨s1, s2, s3⟩ := scanOldestFrom_spec row (fun ln => ln.coreID == target)
      (ways - i0) i0 i0 (rowGet row i0).lastAccessTime rfl (Nat.le_refl i0)
    rcases s2 with heq | ⟨_, hb, _, _⟩
    · rw [heq]
      omega
    · omega

theorem cache_find_victim_lt (c : Cache) (set_index core_id swpQ dwpQ rand : Nat)
    (hw : 0 < c.ways) :
    cache_find_victim c set_index core_id swpQ dwpQ rand < c.ways := by
  simp only [cache_find_victim]
  split
  · next i hfm =>
    obtain ⟨h0, hlt, hp, hfirst⟩ := firstMatch_some_spec _ c.ways 0 i hfm
    omega
  · split
    · obtain ⟨s1, s2, s3⟩ := scanOldestFrom_spec (setGet c set_index).row
        (fun _ => true) c.ways 0 0
        (rowGet (setGet c set_index).row 0).lastAccessTime rfl (Nat.le_refl 0)
      rcases s2 with heq | ⟨_, hb, _, _⟩
      · rw [heq]
        exact hw
      · omega
    · exact Nat.mod_lt _ hw
    · exact swpVictimScan_lt _ _ _ hw
    · exact swpVictimScan_lt _ _ _ hw

/-- Claim C5: in modes C/D/E/F every DRAM access returns 10 bus cycles
plus, under open page, 45 on a row hit (55 total), 135 on a row miss with
the row buffer updated to the new row, or 90 on an idle bank with the row
buffer activated; under close page always 90 (100 total) with the row id
recorded and the valid flag left false; the mode C/DEF wrapper returns the
same delay as the row-buffer model. -/
theorem claim_C5 (d : DRAM) (a : Nat) (w : Bool) :
    (dram_access_mode_CDEF d a w DRAMPolicy.OPEN_PAGE).2 =
      10 + (if (dramRB d a).valid = true then
              (if (dramRB d a).rowID = dramRow d a then 45 else 135)
            else 90) ∧
    (dram_access_mode_CDEF d a w DRAMPolicy.OPEN_PAGE).1.rowbuf =
      (if (dramRB d a).valid = true ∧ (dramRB d a).rowID = dramRow d a then
        d.rowbuf
       else d.rowbuf.set (dramBank d a) ⟨true, dramRow d a⟩) ∧
    (dram_access_mode_CDEF d a w DRAMPolicy.CLOSE_PAGE).2 = 100 ∧
    (dram_access_mode_CDEF d a w DRAMPolicy.CLOSE_PAGE).1.rowbuf =
      d.rowbuf.set (dramBank d a) ⟨false, dramRow d a⟩ ∧
    (dram_access d a w Mode.C DRAMPolicy.OPEN_PAGE).2 =
      (dram_access_mode_CDEF d a w DRAMPolicy.OPEN_PAGE).2 ∧
    (dram_access d a w Mode.DEF DRAMPolicy.CLOSE_PAGE).2 =
      (dram_access_mode_CDEF d a w DRAMPolicy.CLOSE_PAGE).2 := by
  refine ⟨?_, ?_, ?_, ?_, ?_, ?_⟩
  · rcases hrb : dramRB d a with ⟨v, rid⟩
    rw [dramRB, dramBank, dramRow] at hrb
    simp only [dram_access_mode_CDEF, dramRB, dramBank, dramRow, hrb]
    cases v
    · simp
    · by_cases hr : rid = (a >>> d.bank_bits) % U32
      · simp [hr]
      · simp [hr]
  · rcases hrb : dramRB d a with ⟨v, rid⟩
    rw [dramRB, dramBank, dramRow] at hrb
    simp only [dram_access_mode_CDEF, dramRB, dramBank, dramRow, hrb]
    cases v
    · simp
    · by_cases hr : rid = (a >>> d.bank_bits) % U32
      · simp [hr]
      · simp [hr]
  · simp [dram_access_mode_CDEF]
  · rcases hrb : dramRB d a with ⟨v, rid⟩
    rw [dramRB, dramBank, dramRow] at hrb
    simp only [dram_access_mode_CDEF, dramRB, dramBank, dramRow, hrb]
  · cases w <;> simp [dram_access]
  · cases w <;> simp [dram_access]

/-- Claim C8: the VPN-to-PFN translation keeps the low 20 VPN bits, adds
the core id at bit 21 and the high VPN bits from bit 21 up; vpn 0 maps to
pfn 0 on core 0 and to 2 to the 21 on core 1, so equal VPNs below 2 to the
20 on the two cores receive distinct frames. -/
theorem claim_C8 :
    (∀ vpn core_id : Nat, core_id < 2 →
      memsys_convert_vpn_to_pfn vpn core_id =
        vpn % 2 ^ 20 + core_id * 2 ^ 21 + vpn / 2 ^ 20 * 2 ^ 21) ∧
    memsys_convert_vpn_to_pfn 0 0 = 0 ∧
    memsys_convert_vpn_to_pfn 0 1 = 2097152 ∧
    ∀ vpn : Nat, vpn < 2 ^ 20 →
      memsys_convert_vpn_to_pfn vpn 0 ≠ memsys_convert_vpn_to_pfn vpn 1 := by
  have key : ∀ vpn core_id : Nat, core_id < 2 →
      memsys_convert_vpn_to_pfn vpn core_id =
        vpn % 2 ^ 20 + core_id * 2 ^ 21 + vpn / 2 ^ 20 * 2 ^ 21 := by
    intro vpn core h
    unfold memsys_convert_vpn_to_pfn
    have h1 : vpn &&& 0xfffff = vpn % 2 ^ 20 := by
      have := Nat.and_pow_two_sub_one_eq_mod vpn 20
      norm_num at this
      norm_num
      exact this
    have h2 : vpn >>> 20 = vpn / 2 ^ 20 := Nat.shiftRight_eq_div_pow vpn 20
    have h3 : (core <<< 21) % U32 = core * 2 ^ 21 := by
      rw [Nat.shiftLeft_eq]
      apply Nat.mod_eq_of_lt
      unfold U32
      interval_cases core <;> norm_num
    rw [h1, h2, h3]
    simp only [Nat.shiftLeft_eq]
  refine ⟨key, by decide, by decide, ?_⟩
  intro vpn h
  rw [key vpn 0 (by omega), key vpn 1 (by omega)]
  have hm : vpn % 2 ^ 20 = vpn := Nat.mod_eq_of_lt h
  have hd : vpn / 2 ^ 20 = 0 := Nat.div_eq_of_lt h
  rw [hm, hd]
  omega

/-- Witness for claim C8 at vpn 5, core 1 and at vpn 7 for the
distinctness clause. -/
theorem claim_C8_witness :
    memsys_convert_vpn_to_pfn 5 1 = 5 % 2 ^ 20 + 1 * 2 ^ 21 + 5 / 2 ^ 20 * 2 ^ 21 ∧
    memsys_convert_vpn_to_pfn 7 0 ≠ memsys_convert_vpn_to_pfn 7 1 :=
  ⟨claim_C8.1 5 1 (by decide), claim_C8.2.2.2 7 (by decide)⟩

/-- Counterexample to claim C2 as stated: on the mode A trace LOAD 0x0,
LOAD 0x0, STORE 0x40, LOAD 0x0 with a 64-byte one-line cache, the final
LOAD misses and evicts the dirty line installed by the store, so
stat_dirty_evicts ends at 1, not 0 as claimed. -/
theorem claim_C2_counterexample :
    ¬ (c2sys4.dcache.stat_read_access = 3 ∧
       c2sys4.dcache.stat_write_access = 1 ∧
       c2sys4.dcache.stat_read_miss = 2 ∧
       c2sys4.dcache.stat_write_miss = 1 ∧
       c2sys4.dcache.stat_dirty_evicts = 0) := by
  decide

/-- Claim C2 amended: the C2 trace leaves the dcache counters at
read_access 3, write_access 1, read_miss 2, write_miss 1 and
dirty_evicts 1 (the store miss evicts a clean line, but the final load
then evicts the dirty stored line). -/
theorem claim_C2_amended :
    c2sys4.dcache.stat_read_access = 3 ∧
    c2sys4.dcache.stat_write_access = 1 ∧
    c2sys4.dcache.stat_read_miss = 2 ∧
    c2sys4.dcache.stat_write_miss = 1 ∧
    c2sys4.dcache.stat_dirty_evicts = 1 := by
  decide

/-- Counterexample to claim C6 as stated: with bank striping at row
granularity, rows 5 and 7 live in banks 5 and 7, so the four reads of the
scenario cost 100, 55, 100, 55 and not 100, 55, 145, 145. -/
theorem claim_C6_counterexample :
    ¬ (c6read1.2 = 100 ∧ c6read2.2 = 55 ∧ c6read3.2 = 145 ∧ c6read4.2 = 145) := by
  decide

/-- Claim C6 amended: the reads with rows 5, 5, 7, 5 select banks 5, 5,
7, 5 (bank = row mod 16, so two distinct rows can never share a bank);
the first access activates idle bank 5 (100), the second hits its open
row (55), the third activates idle bank 7 (100), and the fourth hits the
still-open row of bank 5 (55). -/
theorem claim_C6_amended :
    dramBank dram_new 80 = 5 ∧
    dramRow dram_new 80 = 5 ∧
    dramBank dram_new 112 = 7 ∧
    dramRow dram_new 112 = 7 ∧
    c6read1.2 = 100 ∧ c6read2.2 = 55 ∧ c6read3.2 = 100 ∧ c6read4.2 = 55 := by
  decide

/-- Claim C3: for cache_find_victim under SWP on a full set, if
ways_per_core[0] is at least the quota and both cores own lines in the
set, the victim belongs to the requesting core; if ways_per_core[0] is
under quota and a core-1 line exists, the victim belongs to core 1; and
among the target core's lines the victim has the smallest
lastAccessTime, ties broken by the lowest way index. -/
theorem claim_C3 (c : Cache) (set_index core_id swpQ dwpQ rand : Nat)
    (hpol : c.policy = ReplacementPolicy.SWP)
    (hfull : ∀ i, i < c.ways → (rowGet (setGet c set_index).row i).valid = true)
    (hcore : core_id < 2) :
    (swpQ ≤ wpcGet (setGet c set_index) 0 →
      (∃ i, i < c.ways ∧ (rowGet (setGet c set_index).row i).coreID = 0) →
      (∃ i, i < c.ways ∧ (rowGet (setGet c set_index).row i).coreID = 1) →
      (rowGet (setGet c set_index).row
        (cache_find_victim c set_index core_id swpQ dwpQ rand)).coreID = core_id) ∧
    (wpcGet (setGet c set_index) 0 < swpQ →
      (∃ i, i < c.ways ∧ (rowGet (setGet c set_index).row i).coreID = 1) →
      (rowGet (setGet c set_index).row
        (cache_find_victim c set_index core_id swpQ dwpQ rand)).coreID = 1) ∧
    (∀ target, target = (if wpcGet (setGet c set_index) 0 < swpQ then 1 else core_id) →
      (∃ i, i < c.ways ∧ (rowGet (setGet c set_index).row i).coreID = target) →
      ∀ j, j < c.ways → (rowGet (setGet c set_index).row j).coreID = target →
        (rowGet (setGet c set_index).row
          (cache_find_victim c set_index core_id swpQ dwpQ rand)).lastAccessTime ≤
          (rowGet (setGet c set_index).row j).lastAccessTime ∧
        ((rowGet (setGet c set_index).row j).lastAccessTime =
          (rowGet (setGet c set_index).row
            (cache_find_victim c set_index core_id swpQ dwpQ rand)).lastAccessTime →
          cache_find_victim c set_index core_id swpQ dwpQ rand ≤ j)) := by
  have hnone : firstMatch (fun i => !(rowGet (setGet c set_index).row i).valid)
      c.ways 0 = none := by
    rcases hfm : firstMatch (fun i => !(rowGet (setGet c set_index).row i).valid)
        c.ways 0 with _ | k
    · rfl
    · obtain ⟨h0, hlt, hp, _⟩ := firstMatch_some_spec _ _ _ _ hfm
      have hval := hfull k (by omega)
      rw [hval] at hp
      simp at hp
  have hvict : cache_find_victim c set_index core_id swpQ dwpQ rand =
      swpVictimScan (setGet c set_index).row c.ways
        (if wpcGet (setGet c set_index) 0 < swpQ then 1 else core_id) := by
    simp only [cache_find_victim, hnone, hpol]
  rw [hvict]
  by_cases hq : wpcGet (setGet c set_index) 0 < swpQ
  · rw [if_pos hq]
    refine ⟨?_, ?_, ?_⟩
    · intro hle _ _
      exact absurd hle (by omega)
    · intro _ h1
      exact (swpVictimScan_spec _ _ _ h1).2.1
    · intro target htarget hmatch j hj hjc
      subst htarget
      exact (swpVictimScan_spec _ _ _ hmatch).2.2 j hj hjc
  · rw [if_neg hq]
    refine ⟨?_, ?_, ?_⟩
    · intro _ hc0 hc1
      have hmatch : ∃ i, i < c.ways ∧
          (rowGet (setGet c set_index).row i).coreID = core_id := by
        interval_cases core_id
        · exact hc0
        · exact hc1
      exact (swpVictimScan_spec _ _ _ hmatch).2.1
    · intro hlt _
      exact absurd hlt hq
    · intro target htarget hmatch j hj hjc
      subst htarget
      exact (swpVictimScan_spec _ _ _ hmatch).2.2 j hj hjc

/-- Witness for claim C3 on a concrete full two-way SWP set with lines of
both cores, quota 1 and requesting core 0: the victim belongs to core 0. -/
theorem claim_C3_witness :
    (rowGet (setGet swpCacheW 0).row (cache_find_victim swpCacheW 0 0 1 0 0)).coreID = 0 :=
  (claim_C3 swpCacheW 0 0 1 0 0 rfl (by decide) (by decide)).1 (by decide)
    ⟨0, by decide, by decide⟩ ⟨1, by decide, by decide⟩

theorem rowGet_valid_lt (row : List CacheLine) (i : Nat)
    (h : (rowGet row i).valid = true) : i < row.length := by
  by_contra hge
  push_neg at hge
  rw [rowGet, List.getD_eq_default _ _ hge] at h
  simp [line0] at h

theorem cache_access_fields (c : Cache) (a : Nat) (w : Bool) (core cycle : Nat) :
    (cache_access c a w core cycle).1.ways = c.ways ∧
    (cache_access c a w core cycle).1.sets = c.sets ∧
    (cache_access c a w core cycle).1.index_bits = c.index_bits ∧
    (cache_access c a w core cycle).1.index_mask = c.index_mask ∧
    (cache_access c a w core cycle).1.policy = c.policy ∧
    (cache_access c a w core cycle).1.cacheGrid.length = c.cacheGrid.length := by
  simp only [cache_access]
  split <;> split <;> simp

theorem cache_access_setGet_ne (c : Cache) (a : Nat) (w : Bool)
    (core cycle : Nat) (s : Nat) (hs : s ≠ a &&& c.index_mask) :
    setGet (cache_access c a w core cycle).1 s = setGet c s := by
  simp only [cache_access]
  split <;> split <;>
    (simp only [setGet]
     rw [getD_set_other _ _ _ _ _ (Ne.symm hs)])
theorem accessBump_cacheGrid (c : Cache) (w : Bool) :
    (if w = true then { c with stat_write_access := c.stat_write_access + 1 }
      else { c with stat_read_access := c.stat_read_access + 1 }).cacheGrid = c.cacheGrid := by
  cases w <;> rfl

theorem accessBump_ways (c : Cache) (w : Bool) :
    (if w = true then { c with stat_write_access := c.stat_write_access + 1 }
      else { c with stat_read_access := c.stat_read_access + 1 }).ways = c.ways := by
  cases w <;> rfl

theorem cache_access_hit_iff (c : Cache) (a : Nat) (w : Bool) (core cycle : Nat) :
    (cache_access c a w core cycle).2 = CacheResult.HIT ↔
      ∃ i, i < c.ways ∧
        (rowGet (setGet c (a &&& c.index_mask)).row i).valid = true ∧
        (rowGet (setGet c (a &&& c.index_mask)).row i).coreID = core ∧
        (rowGet (setGet c (a &&& c.index_mask)).row i).tag = a >>> c.index_bits := by
  simp only [cache_access, setGet, accessBump_cacheGrid, accessBump_ways]
  split
  · next i hfm =>
    refine iff_of_true rfl ?_
    obtain ⟨h0, hlt, hp, _⟩ := firstMatch_some_spec _ _ _ _ hfm
    simp only [Bool.and_eq_true, beq_iff_eq] at hp
    exact ⟨i, by omega, hp.1.1, hp.1.2, hp.2⟩
  · next hfm =>
    have hall := firstMatch_none_spec _ _ _ hfm
    refine iff_of_false (by simp) ?_
    rintro ⟨i, hi, hv, hc, ht⟩
    have hpred := hall i (by omega) (by omega)
    rw [hv, hc, ht] at hpred
    simp at hpred
theorem cache_ite_cacheGrid (P : Prop) [Decidable P] (A B : Cache) :
    (if P then A else B).cacheGrid = if P then A.cacheGrid else B.cacheGrid := by
  split <;> rfl

theorem cache_ite_ways (P : Prop) [Decidable P] (A B : Cache) :
    (if P then A else B).ways = if P then A.ways else B.ways := by
  split <;> rfl

theorem cache_access_set_self (c : Cache) (a : Nat) (w : Bool) (core cycle : Nat)
    (hs : a &&& c.index_mask < c.cacheGrid.length) :
    (setGet (cache_access c a w core cycle).1 (a &&& c.index_mask)).ways_per_core =
      (setGet c (a &&& c.index_mask)).ways_per_core ∧
    ((setGet (cache_access c a w core cycle).1 (a &&& c.index_mask)).row =
        (setGet c (a &&& c.index_mask)).row ∨
      ∃ i, i < (setGet c (a &&& c.index_mask)).row.length ∧
        (setGet (cache_access c a w core cycle).1 (a &&& c.index_mask)).row =
          (setGet c (a &&& c.index_mask)).row.set i
            { valid := (rowGet (setGet c (a &&& c.index_mask)).row i).valid
              dirty := (if w = true then true else
                (rowGet (setGet c (a &&& c.index_mask)).row i).dirty)
              tag := (rowGet (setGet c (a &&& c.index_mask)).row i).tag
              coreID := (rowGet (setGet c (a &&& c.index_mask)).row i).coreID
              lastAccessTime := cycle }) := by
  simp only [cache_access, setGet, cache_ite_cacheGrid, cache_ite_ways, ite_self]
  split
  · next i hfm =>
    obtain ⟨h0, hlt, hp, _⟩ := firstMatch_some_spec _ _ _ _ hfm
    simp only [Bool.and_eq_true, beq_iff_eq] at hp
    have hilen : i < (c.cacheGrid.getD (a &&& c.index_mask) set0).row.length :=
      rowGet_valid_lt _ _ hp.1.1
    rw [getD_set_self _ _ _ _ hs]
    refine ⟨rfl, Or.inr ⟨i, hilen, ?_⟩⟩
    cases w <;> rfl
  · rw [getD_set_self _ _ _ _ hs]
    exact ⟨rfl, Or.inl rfl⟩
theorem cache_install_eq (c : Cache) (a : Nat) (w : Bool)
    (core cycle q1 q2 r : Nat) :
    cache_install c a w core cycle q1 q2 r =
      { c with
        lastEvictedLine := installEvicted c a core q1 q2 r
        stat_dirty_evicts :=
          if (installEvicted c a core q1 q2 r).valid = true ∧
             (installEvicted c a core q1 q2 r).dirty = true
          then c.stat_dirty_evicts + 1 else c.stat_dirty_evicts
        cacheGrid := c.cacheGrid.set (installSetIdx c a)
          { row := (setGet c (installSetIdx c a)).row.set
              (installVictim c a core q1 q2 r)
              ⟨true, w, a >>> c.index_bits, core, cycle⟩
            ways_per_core := (installWpcMid c a core q1 q2 r).set core
              (incr32 ((installWpcMid c a core q1 q2 r).getD core 0))
            umon := (setGet c (installSetIdx c a)).umon } } := by
  simp only [cache_install, installWpcMid, installEvicted, installVictim,
    installSetIdx, wpcGet]
  split_ifs <;> rfl

theorem cache_install_setGet_ne (c : Cache) (a : Nat) (w : Bool)
    (core cycle q1 q2 r : Nat) (s : Nat) (hs : s ≠ installSetIdx c a) :
    setGet (cache_install c a w core cycle q1 q2 r) s = setGet c s := by
  rw [cache_install_eq]
  unfold setGet
  exact getD_set_other _ _ _ _ _ (Ne.symm hs)

theorem cache_install_setGet_self (c : Cache) (a : Nat) (w : Bool)
    (core cycle q1 q2 r : Nat) (hlt : installSetIdx c a < c.cacheGrid.length) :
    setGet (cache_install c a w core cycle q1 q2 r) (installSetIdx c a) =
      { row := (setGet c (installSetIdx c a)).row.set
          (installVictim c a core q1 q2 r)
          ⟨true, w, a >>> c.index_bits, core, cycle⟩
        ways_per_core := (installWpcMid c a core q1 q2 r).set core
          (incr32 ((installWpcMid c a core q1 q2 r).getD core 0))
        umon := (setGet c (installSetIdx c a)).umon } := by
  rw [cache_install_eq]
  unfold setGet
  exact getD_set_self _ _ _ _ hlt

theorem cache_install_fields (c : Cache) (a : Nat) (w : Bool)
    (core cycle q1 q2 r : Nat) :
    (cache_install c a w core cycle q1 q2 r).ways = c.ways ∧
    (cache_install c a w core cycle q1 q2 r).sets = c.sets ∧
    (cache_install c a w core cycle q1 q2 r).index_bits = c.index_bits ∧
    (cache_install c a w core cycle q1 q2 r).index_mask = c.index_mask ∧
    (cache_install c a w core cycle q1 q2 r).policy = c.policy ∧
    (cache_install c a w core cycle q1 q2 r).cacheGrid.length = c.cacheGrid.length ∧
    (cache_install c a w core cycle q1 q2 r).stat_read_access = c.stat_read_access ∧
    (cache_install c a w core cycle q1 q2 r).stat_read_miss = c.stat_read_miss ∧
    (cache_install c a w core cycle q1 q2 r).stat_write_access = c.stat_write_access ∧
    (cache_install c a w core cycle q1 q2 r).stat_write_miss = c.stat_write_miss := by
  rw [cache_install_eq]
  simp [List.length_set]

theorem coreCount_ge_one (row : List CacheLine) (v cid : Nat) (hv : v < row.length)
    (hval : (rowGet row v).valid = true) (hcid : (rowGet row v).coreID = cid) :
    1 ≤ coreCount row cid := by
  unfold coreCount
  have hmem : row.getD v line0 ∈ row := getD_mem row v line0 hv
  rw [rowGet] at hval hcid
  have hp : ((row.getD v line0).valid && ((row.getD v line0).coreID == cid)) = true := by
    rw [hval, hcid]
    simp
  have hpos : 0 < row.countP (fun ln => ln.valid && ln.coreID == cid) :=
    List.countP_pos_iff.mpr ⟨_, hmem, hp⟩
  omega

theorem coreCount_le_length (row : List CacheLine) (cid : Nat) :
    coreCount row cid ≤ row.length := by
  unfold coreCount
  exact List.countP_le_length _
theorem coreCount_set_eq (row : List CacheLine) (v : Nat) (ln : CacheLine)
    (cid : Nat) (hv : v < row.length) :
    coreCount (row.set v ln) cid +
      (if (rowGet row v).valid = true ∧ (rowGet row v).coreID = cid then 1 else 0) =
    coreCount row cid + (if ln.valid = true ∧ ln.coreID = cid then 1 else 0) := by
  have hbal := countP_set_balance (fun l => l.valid && l.coreID == cid) row v ln line0 hv
  simp only [Bool.and_eq_true, beq_iff_eq] at hbal
  unfold coreCount rowGet
  exact hbal

theorem installWpc_count (st : CacheSet) (ways core v cid tg cyc : Nat) (wb : Bool)
    (hwf : SetWF st ways) (hcore : core < 2) (hcid : cid < 2)
    (hv : v < ways) (hw16 : ways ≤ 16) :
    ((if (rowGet st.row v).valid = true then
        st.ways_per_core.set (rowGet st.row v).coreID
          (decr32 (wpcGet st (rowGet st.row v).coreID))
      else st.ways_per_core).set core
      (incr32 ((if (rowGet st.row v).valid = true then
          st.ways_per_core.set (rowGet st.row v).coreID
            (decr32 (wpcGet st (rowGet st.row v).coreID))
        else st.ways_per_core).getD core 0))).getD cid 0 =
    coreCount (st.row.set v ⟨true, wb, tg, core, cyc⟩) cid := by
  obtain ⟨w1, w2, w3, w4, w5⟩ := hwf
  have hvrow : v < st.row.length := by rw [w1]; exact hv
  have hbal := coreCount_set_eq st.row v ⟨true, wb, tg, core, cyc⟩ cid hvrow
  have hcle : coreCount st.row cid ≤ 16 := by
    have := coreCount_le_length st.row cid
    omega
  have hwget : st.ways_per_core.getD cid 0 = coreCount st.row cid := by
    have h01 : cid = 0 ∨ cid = 1 := by omega
    rcases h01 with rfl | rfl
    · exact w4
    · exact w5
  by_cases hev : (rowGet st.row v).valid = true
  · have hec2 : (rowGet st.row v).coreID < 2 := by
      rcases w3 v hv with h | h
      · rw [h] at hev
        cases hev
      · exact h
    rw [if_pos hev]
    by_cases hec : (rowGet st.row v).coreID = cid
    · rw [if_pos ⟨hev, hec⟩] at hbal
      have hge1 : 1 ≤ coreCount st.row cid := coreCount_ge_one st.row v cid hvrow hev hec
      rw [hec]
      have hwgetc : wpcGet st cid = coreCount st.row cid := hwget
      by_cases hcc : core = cid
      · subst hcc
        rw [if_pos ⟨rfl, rfl⟩] at hbal
        rw [getD_set_self _ _ _ _ (by rw [List.length_set, w2]; exact hcore),
          getD_set_self _ _ _ _ (by rw [w2]; exact hcore), hwgetc]
        unfold incr32 decr32 U32
        omega
      · rw [if_neg (fun h => hcc h.2)] at hbal
        rw [getD_set_other _ _ _ _ _ hcc,
          getD_set_self _ _ _ _ (by rw [w2]; exact hcid), hwgetc]
        unfold decr32 U32
        omega
    · rw [if_neg (fun h => hec h.2)] at hbal
      by_cases hcc : core = cid
      · subst hcc
        rw [if_pos ⟨rfl, rfl⟩] at hbal
        rw [getD_set_self _ _ _ _ (by rw [List.length_set, w2]; exact hcore),
          getD_set_other _ _ _ _ _ hec, hwget]
        unfold incr32 U32
        omega
      · rw [if_neg (fun h => hcc h.2)] at hbal
        rw [getD_set_other _ _ _ _ _ hcc,
          getD_set_other _ _ _ _ _ hec, hwget]
        omega
  · rw [if_neg hev]
    rw [if_neg (fun h => hev h.1)] at hbal
    by_cases hcc : core = cid
    · subst hcc
      rw [if_pos ⟨rfl, rfl⟩] at hbal
      rw [getD_set_self _ _ _ _ (by rw [w2]; exact hcore), hwget]
      unfold incr32 U32
      omega
    · rw [if_neg (fun h => hcc h.2)] at hbal
      rw [getD_set_other _ _ _ _ _ hcc, hwget]
      omega

theorem installSet_wf (st : CacheSet) (ways core v tg cyc : Nat) (wb : Bool)
    (hwf : SetWF st ways) (hcore : core < 2) (hv : v < ways) (hw16 : ways ≤ 16) :
    SetWF { row := st.row.set v ⟨true, wb, tg, core, cyc⟩
            ways_per_core :=
              (if (rowGet st.row v).valid = true then
                  st.ways_per_core.set (rowGet st.row v).coreID
                    (decr32 (wpcGet st (rowGet st.row v).coreID))
                else st.ways_per_core).set core
                (incr32 ((if (rowGet st.row v).valid = true then
                    st.ways_per_core.set (rowGet st.row v).coreID
                      (decr32 (wpcGet st (rowGet st.row v).coreID))
                  else st.ways_per_core).getD core 0))
            umon := st.umon } ways := by
  obtain ⟨w1, w2, w3, w4, w5⟩ := hwf
  have hvrow : v < st.row.length := by rw [w1]; exact hv
  refine ⟨by rw [List.length_set]; exact w1, ?_, ?_, ?_, ?_⟩
  · by_cases hev : (rowGet st.row v).valid = true <;>
      simp [hev, List.length_set, w2]
  · intro i hi
    by_cases hiv : v = i
    · subst hiv
      right
      rw [rowGet, getD_set_self _ _ _ _ hvrow]
      exact hcore
    · rw [rowGet, getD_set_other _ _ _ _ _ hiv]
      exact w3 i hi
  · exact installWpc_count st ways core v 0 tg cyc wb ⟨w1, w2, w3, w4, w5⟩
      hcore (by omega) hv hw16
  · exact installWpc_count st ways core v 1 tg cyc wb ⟨w1, w2, w3, w4, w5⟩
      hcore (by omega) hv hw16
theorem coreCount_set_keys (row : List CacheLine) (i : Nat) (ln : CacheLine)
    (cid : Nat) (hi : i < row.length)
    (hval : ln.valid = (rowGet row i).valid) (hc : ln.coreID = (rowGet row i).coreID) :
    coreCount (row.set i ln) cid = coreCount row cid := by
  have hbal := coreCount_set_eq row i ln cid hi
  have hiff : ((rowGet row i).valid = true ∧ (rowGet row i).coreID = cid) ↔
      (ln.valid = true ∧ ln.coreID = cid) := by
    rw [hval, hc]
  rw [if_congr hiff rfl rfl] at hbal
  omega

theorem cache_access_wf (c : Cache) (a : Nat) (w : Bool) (core cycle : Nat)
    (hwf : CacheWF c) : CacheWF (cache_access c a w core cycle).1 := by
  obtain ⟨hw, hw16, hsets, hmask, hlen, hsetwf⟩ := hwf
  obtain ⟨f1, f2, f3, f4, f5, f6⟩ := cache_access_fields c a w core cycle
  have hs0 : a &&& c.index_mask < c.cacheGrid.length := by
    rw [hmask, Nat.and_pow_two_sub_one_eq_mod, hlen, hsets]
    exact Nat.mod_lt _ (Nat.two_pow_pos _)
  obtain ⟨hwpc, hrow⟩ := cache_access_set_self c a w core cycle hs0
  refine ⟨by rw [f1]; exact hw, by rw [f1]; exact hw16,
    by rw [f2, f3]; exact hsets, by rw [f4, f3]; exact hmask,
    by rw [f6, f2]; exact hlen, ?_⟩
  intro s hslt
  rw [f2] at hslt
  rw [f1]
  by_cases hseq : s = a &&& c.index_mask
  · subst hseq
    obtain ⟨w1, w2, w3, w4, w5⟩ := hsetwf _ hslt
    rcases hrow with hsame | ⟨i, hilen, hset⟩
    · refine ⟨by rw [hsame]; exact w1, by rw [hwpc]; exact w2,
        fun j hj => by rw [hsame]; exact w3 j hj, ?_, ?_⟩
      · unfold wpcGet at *
        rw [hwpc, hsame]
        exact w4
      · unfold wpcGet at *
        rw [hwpc, hsame]
        exact w5
    · refine ⟨by rw [hset, List.length_set]; exact w1, by rw [hwpc]; exact w2,
        ?_, ?_, ?_⟩
      · intro j hj
        rw [hset]
        by_cases hij : i = j
        · subst hij
          rw [rowGet, getD_set_self _ _ _ _ hilen]
          exact w3 i hj
        · rw [rowGet, getD_set_other _ _ _ _ _ hij]
          exact w3 j hj
      · unfold wpcGet at *
        rw [hwpc, hset]
        rw [coreCount_set_keys (setGet c (a &&& c.index_mask)).row i
          { valid := (rowGet (setGet c (a &&& c.index_mask)).row i).valid
            dirty := if w = true then true else
              (rowGet (setGet c (a &&& c.index_mask)).row i).dirty
            tag := (rowGet (setGet c (a &&& c.index_mask)).row i).tag
            coreID := (rowGet (setGet c (a &&& c.index_mask)).row i).coreID
            lastAccessTime := cycle } 0 hilen rfl rfl]
        exact w4
      · unfold wpcGet at *
        rw [hwpc, hset]
        rw [coreCount_set_keys (setGet c (a &&& c.index_mask)).row i
          { valid := (rowGet (setGet c (a &&& c.index_mask)).row i).valid
            dirty := if w = true then true else
              (rowGet (setGet c (a &&& c.index_mask)).row i).dirty
            tag := (rowGet (setGet c (a &&& c.index_mask)).row i).tag
            coreID := (rowGet (setGet c (a &&& c.index_mask)).row i).coreID
            lastAccessTime := cycle } 1 hilen rfl rfl]
        exact w5
  · rw [cache_access_setGet_ne c a w core cycle s hseq]
    exact hsetwf s hslt

theorem cache_install_wf (c : Cache) (a : Nat) (w : Bool)
    (core cycle q1 q2 r : Nat) (hwf : CacheWF c) (hcore : core < 2) :
    CacheWF (cache_install c a w core cycle q1 q2 r) := by
  obtain ⟨hw, hw16, hsets, hmask, hlen, hsetwf⟩ := hwf
  obtain ⟨f1, f2, f3, f4, f5, f6, _, _, _, _⟩ :=
    cache_install_fields c a w core cycle q1 q2 r
  have hpos : 0 < c.sets := by
    rw [hsets]
    exact Nat.two_pow_pos _
  have hs0 : installSetIdx c a < c.sets := by
    unfold installSetIdx
    exact Nat.mod_lt _ hpos
  have hvlt : installVictim c a core q1 q2 r < c.ways := by
    unfold installVictim
    exact cache_find_victim_lt _ _ _ _ _ _ hw
  refine ⟨by rw [f1]; exact hw, by rw [f1]; exact hw16,
    by rw [f2, f3]; exact hsets, by rw [f4, f3]; exact hmask,
    by rw [f6, f2]; exact hlen, ?_⟩
  intro s hslt
  rw [f2] at hslt
  rw [f1]
  by_cases hseq : s = installSetIdx c a
  · subst hseq
    rw [cache_install_setGet_self c a w core cycle q1 q2 r (by rw [hlen]; exact hs0)]
    have hmain := installSet_wf (setGet c (installSetIdx c a)) c.ways core
      (installVictim c a core q1 q2 r) (a >>> c.index_bits) cycle w
      (hsetwf _ hs0) hcore hvlt hw16
    simpa [installWpcMid, installEvicted] using hmain
  · rw [cache_install_setGet_ne c a w core cycle q1 q2 r s hseq]
    exact hsetwf s hslt
/-- Claim C7: the per-set ways_per_core counters track, for each core in
0..1, the number of valid lines of that core, together with the geometric
well-formedness of the cache; this invariant is preserved by every
cache_access and, for a requesting core below 2, by every cache_install;
the counter equality itself is spelled out for the resulting caches. -/
theorem claim_C7 (c : Cache) (line_addr : Nat) (is_write : Bool)
    (core_id cycle swpQ dwpQ rand : Nat) (hwf : CacheWF c) :
    CacheWF (cache_access c line_addr is_write core_id cycle).1 ∧
    (core_id < 2 →
      CacheWF (cache_install c line_addr is_write core_id cycle swpQ dwpQ rand)) ∧
    (∀ s cid, s < c.sets → cid < 2 →
      wpcGet (setGet (cache_access c line_addr is_write core_id cycle).1 s) cid =
        coreCount (setGet (cache_access c line_addr is_write core_id cycle).1 s).row cid) ∧
    (core_id < 2 → ∀ s cid, s < c.sets → cid < 2 →
      wpcGet (setGet (cache_install c line_addr is_write core_id cycle swpQ dwpQ rand) s) cid =
        coreCount (setGet (cache_install c line_addr is_write core_id cycle swpQ dwpQ rand) s).row cid) := by
  have ha := cache_access_wf c line_addr is_write core_id cycle hwf
  refine ⟨ha, fun h => cache_install_wf c line_addr is_write core_id cycle swpQ dwpQ rand hwf h, ?_, ?_⟩
  · intro s cid hs hcid
    obtain ⟨_, _, _, _, _, hsetwf⟩ := ha
    have hs2 : s < (cache_access c line_addr is_write core_id cycle).1.sets := by
      rw [(cache_access_fields c line_addr is_write core_id cycle).2.1]
      exact hs
    obtain ⟨_, _, _, h4, h5⟩ := hsetwf s hs2
    have h01 : cid = 0 ∨ cid = 1 := by omega
    rcases h01 with rfl | rfl
    · exact h4
    · exact h5
  · intro h s cid hs hcid
    obtain ⟨_, _, _, _, _, hsetwf⟩ :=
      cache_install_wf c line_addr is_write core_id cycle swpQ dwpQ rand hwf h
    have hs2 : s < (cache_install c line_addr is_write core_id cycle swpQ dwpQ rand).sets := by
      rw [(cache_install_fields c line_addr is_write core_id cycle swpQ dwpQ rand).2.1]
      exact hs
    obtain ⟨_, _, _, h4, h5⟩ := hsetwf s hs2
    have h01 : cid = 0 ∨ cid = 1 := by omega
    rcases h01 with rfl | rfl
    · exact h4
    · exact h5

/-- Witness for claim C7 on the default 64-byte direct-mapped cache with
a store by core 0. -/
theorem claim_C7_witness :
    CacheWF (cache_access cacheDefault 5 true 0 3).1 ∧
    CacheWF (cache_install cacheDefault 5 true 0 3 0 0 0) := by
  have h := claim_C7 cacheDefault 5 true 0 3 0 0 0 (by decide)
  exact ⟨h.1, h.2.1 (by decide)⟩
theorem cache_access_preserves_match (c : Cache) (a : Nat) (w : Bool)
    (core cyc : Nat) (hs0 : a &&& c.index_mask < c.cacheGrid.length)
    (i tg cr : Nat)
    (hv : (rowGet (setGet c (a &&& c.index_mask)).row i).valid = true)
    (hc : (rowGet (setGet c (a &&& c.index_mask)).row i).coreID = cr)
    (ht : (rowGet (setGet c (a &&& c.index_mask)).row i).tag = tg) :
    (rowGet (setGet (cache_access c a w core cyc).1 (a &&& c.index_mask)).row i).valid = true ∧
    (rowGet (setGet (cache_access c a w core cyc).1 (a &&& c.index_mask)).row i).coreID = cr ∧
    (rowGet (setGet (cache_access c a w core cyc).1 (a &&& c.index_mask)).row i).tag = tg := by
  obtain ⟨_, hrow⟩ := cache_access_set_self c a w core cyc hs0
  rcases hrow with hsame | ⟨j, hjlen, hset⟩
  · rw [hsame]
    exact ⟨hv, hc, ht⟩
  · rw [hset]
    by_cases hij : j = i
    · subst hij
      rw [rowGet, getD_set_self _ _ _ _ hjlen]
      exact ⟨hv, hc, ht⟩
    · rw [rowGet, getD_set_other _ _ _ _ _ hij]
      exact ⟨hv, hc, ht⟩

theorem cache_install_creates (c : Cache) (a : Nat) (w : Bool)
    (core cyc q1 q2 r : Nat) (hwf : CacheWF c) :
    ∃ i, i < c.ways ∧
      rowGet (setGet (cache_install c a w core cyc q1 q2 r) (a &&& c.index_mask)).row i =
        ⟨true, w, a >>> c.index_bits, core, cyc⟩ := by
  obtain ⟨hw, hw16, hsets, hmask, hlen, hsetwf⟩ := hwf
  have hpos : 0 < c.sets := by
    rw [hsets]
    exact Nat.two_pow_pos _
  have hidx : installSetIdx c a = a &&& c.index_mask := by
    unfold installSetIdx
    exact Nat.mod_eq_of_lt (by
      rw [hmask, Nat.and_pow_two_sub_one_eq_mod, hsets]
      exact Nat.mod_lt _ (Nat.two_pow_pos _))
  have hs0 : installSetIdx c a < c.sets := by
    unfold installSetIdx
    exact Nat.mod_lt _ hpos
  have hvlt : installVictim c a core q1 q2 r < c.ways := by
    unfold installVictim
    exact cache_find_victim_lt _ _ _ _ _ _ hw
  obtain ⟨w1, _, _, _, _⟩ := hsetwf _ hs0
  have hself := cache_install_setGet_self c a w core cyc q1 q2 r
    (by rw [hlen]; exact hs0)
  refine ⟨installVictim c a core q1 q2 r, hvlt, ?_⟩
  rw [← hidx, hself, rowGet, getD_set_self]
  rw [w1]
  exact hvlt

/-- Claim C9: if an access of line A by a core hits, an immediately
following access of A by the same core hits again; if it misses and is
followed by an install of A for that core, the next access of A by that
core hits. -/
theorem claim_C9 (c : Cache) (a : Nat) (iw1 iw2 iw3 : Bool)
    (core cyc cyc2 cyc3 swpQ dwpQ rand : Nat) (hwf : CacheWF c) :
    ((cache_access c a iw1 core cyc).2 = CacheResult.HIT →
      (cache_access (cache_access c a iw1 core cyc).1 a iw2 core cyc2).2 =
        CacheResult.HIT) ∧
    ((cache_access c a iw1 core cyc).2 = CacheResult.MISS →
      (cache_access (cache_install (cache_access c a iw1 core cyc).1 a iw3 core
          cyc3 swpQ dwpQ rand) a iw2 core cyc2).2 = CacheResult.HIT) := by
  obtain ⟨hw, hw16, hsets, hmask, hlen, hsetwf⟩ := hwf
  have hs0 : a &&& c.index_mask < c.cacheGrid.length := by
    rw [hmask, Nat.and_pow_two_sub_one_eq_mod, hlen, hsets]
    exact Nat.mod_lt _ (Nat.two_pow_pos _)
  obtain ⟨g1, g2, g3, g4, g5, g6⟩ := cache_access_fields c a iw1 core cyc
  constructor
  · intro h
    obtain ⟨i, hi, hv, hc, ht⟩ := (cache_access_hit_iff c a iw1 core cyc).mp h
    obtain ⟨p1, p2, p3⟩ :=
      cache_access_preserves_match c a iw1 core cyc hs0 i _ _ hv hc ht
    rw [cache_access_hit_iff, g1, g4, g3]
    exact ⟨i, hi, p1, p2, p3⟩
  · intro h
    have hwf1 := cache_access_wf c a iw1 core cyc
      ⟨hw, hw16, hsets, hmask, hlen, hsetwf⟩
    obtain ⟨j1, j2, j3, j4, j5, j6, _, _, _, _⟩ :=
      cache_install_fields (cache_access c a iw1 core cyc).1 a iw3 core cyc3 swpQ dwpQ rand
    obtain ⟨v, hvlt, hvline⟩ :=
      cache_install_creates (cache_access c a iw1 core cyc).1 a iw3 core cyc3
        swpQ dwpQ rand hwf1
    rw [g4, g3] at hvline
    rw [g1] at hvlt
    rw [cache_access_hit_iff, j1, g1, j4, g4, j3, g3]
    refine ⟨v, hvlt, ?_, ?_, ?_⟩ <;> rw [hvline]

/-- Witness for claim C9: on the default cache, a missed load of line 5
followed by its install makes the next access of line 5 hit. -/
theorem claim_C9_witness :
    (cache_access (cache_install (cache_access cacheDefault 5 false 0 1).1
      5 false 0 2 0 0 0) 5 false 0 3).2 = CacheResult.HIT :=
  (claim_C9 cacheDefault 5 false false false 0 1 3 2 0 0 0 (by decide)).2 (by decide)
theorem wbL2List_append (l1 l2 : List MemEvent) :
    wbL2List (l1 ++ l2) = wbL2List l1 ++ wbL2List l2 := by
  induction l1 with
  | nil => rfl
  | cons e rest ih =>
    cases e with
    | l2access x b => cases b <;> simp [wbL2List, ih]
    | dram x b => simp [wbL2List, ih]

theorem dramWriteList_append (l1 l2 : List MemEvent) :
    dramWriteList (l1 ++ l2) = dramWriteList l1 ++ dramWriteList l2 := by
  induction l1 with
  | nil => rfl
  | cons e rest ih =>
    cases e with
    | l2access x b => simp [dramWriteList, ih]
    | dram x b => cases b <;> simp [dramWriteList, ih]

theorem memsys_l2_access_events (sys : MemorySystem) (a : Nat) (wb : Bool)
    (core : Nat) (sm : Mode) (pp : DRAMPolicy) (cyc q1 q2 r : Nat) :
    (memsys_l2_access sys a wb core sm pp cyc q1 q2 r).2.2 =
      MemEvent.l2access a wb ::
        (if (cache_access sys.l2cache a wb core cyc).2 = CacheResult.MISS then
          MemEvent.dram a false ::
            (if (cache_install (cache_access sys.l2cache a wb core cyc).1 a wb core
                  cyc q1 q2 r).lastEvictedLine.valid = true ∧
                (cache_install (cache_access sys.l2cache a wb core cyc).1 a wb core
                  cyc q1 q2 r).lastEvictedLine.dirty = true then
              [MemEvent.dram
                ((((cache_install (cache_access sys.l2cache a wb core cyc).1 a wb core
                      cyc q1 q2 r).lastEvictedLine.tag <<<
                    (cache_install (cache_access sys.l2cache a wb core cyc).1 a wb core
                      cyc q1 q2 r).index_bits) |||
                  ((a &&& (cache_install (cache_access sys.l2cache a wb core cyc).1 a wb
                      core cyc q1 q2 r).index_mask) % U32)) % U32) true]
            else [])
        else []) := by
  simp only [memsys_l2_access]
  split
  · next heq => simp [heq]
  · next heq =>
    simp only [heq]
    split
    · next hcond => simp [hcond]
    · next hcond => simp [hcond]

theorem wbL2List_l2_events (sys : MemorySystem) (a : Nat) (wb : Bool)
    (core : Nat) (sm : Mode) (pp : DRAMPolicy) (cyc q1 q2 r : Nat) :
    wbL2List (memsys_l2_access sys a wb core sm pp cyc q1 q2 r).2.2 =
      (if wb = true then [a] else []) := by
  rw [memsys_l2_access_events]
  cases wb <;> split_ifs <;> simp_all [wbL2List]

theorem dramWriteList_l2_events (sys : MemorySystem) (a : Nat) (wb : Bool)
    (core : Nat) (sm : Mode) (pp : DRAMPolicy) (cyc q1 q2 r : Nat) :
    dramWriteList (memsys_l2_access sys a wb core sm pp cyc q1 q2 r).2.2 =
      if (cache_access sys.l2cache a wb core cyc).2 = CacheResult.MISS then
        (if (cache_install (cache_access sys.l2cache a wb core cyc).1 a wb core
              cyc q1 q2 r).lastEvictedLine.valid = true ∧
            (cache_install (cache_access sys.l2cache a wb core cyc).1 a wb core
              cyc q1 q2 r).lastEvictedLine.dirty = true then
          [(((cache_install (cache_access sys.l2cache a wb core cyc).1 a wb core
                cyc q1 q2 r).lastEvictedLine.tag <<<
              (cache_install (cache_access sys.l2cache a wb core cyc).1 a wb core
                cyc q1 q2 r).index_bits) |||
            ((a &&& (cache_install (cache_access sys.l2cache a wb core cyc).1 a wb
                core cyc q1 q2 r).index_mask) % U32)) % U32]
        else [])
      else [] := by
  rw [memsys_l2_access_events]
  cases wb <;> split_ifs <;> simp_all [dramWriteList]

theorem memsys_l2_access_getL1 (sys : MemorySystem) (a : Nat) (wb : Bool)
    (core : Nat) (sm : Mode) (pp : DRAMPolicy) (cyc q1 q2 r : Nat) (sel : L1Sel) :
    getL1 (memsys_l2_access sys a wb core sm pp cyc q1 q2 r).1 sel = getL1 sys sel := by
  simp only [memsys_l2_access]
  split
  · cases sel <;> rfl
  · split <;> cases sel <;> rfl

theorem getL1_setL1 (sys : MemorySystem) (sel : L1Sel) (c : Cache)
    (h : selOK sys sel) : getL1 (setL1 sys sel c) sel = c := by
  cases sel
  · rfl
  · rfl
  · exact getD_set_self _ _ _ _ h
  · exact getD_set_self _ _ _ _ h
theorem memsys_l1_flow_wbL2 (sys : MemorySystem) (sel : L1Sel) (a : Nat)
    (iw isIf : Bool) (core : Nat) (sm : Mode) (pp : DRAMPolicy)
    (cyc q1 q2 r1 r2 r3 : Nat) (hsel : selOK sys sel) :
    wbL2List (memsys_l1_flow sys sel a iw isIf core sm pp cyc q1 q2 r1 r2 r3).2.2 =
      (if (cache_access (getL1 sys sel) a iw core cyc).2 = CacheResult.MISS then
        (if isIf = false ∧
            (cache_install (cache_access (getL1 sys sel) a iw core cyc).1 a iw core
              cyc q1 q2 r2).lastEvictedLine.valid = true ∧
            (cache_install (cache_access (getL1 sys sel) a iw core cyc).1 a iw core
              cyc q1 q2 r2).lastEvictedLine.dirty = true then
          [(((cache_install (cache_access (getL1 sys sel) a iw core cyc).1 a iw core
                cyc q1 q2 r2).lastEvictedLine.tag <<<
              (cache_install (cache_access (getL1 sys sel) a iw core cyc).1 a iw core
                cyc q1 q2 r2).index_bits) % U32) |||
            ((a &&& (cache_install (cache_access (getL1 sys sel) a iw core cyc).1 a iw
                core cyc q1 q2 r2).index_mask) % U32)]
        else [])
      else []) := by
  have hL1 : getL1 (memsys_l2_access (setL1 sys sel
      (cache_access (getL1 sys sel) a iw core cyc).1) a false core sm pp cyc q1 q2 r1).1
        sel = (cache_access (getL1 sys sel) a iw core cyc).1 := by
    rw [memsys_l2_access_getL1]
    exact getL1_setL1 _ _ _ hsel
  simp only [memsys_l1_flow]
  split
  · next heq => simp [heq, wbL2List]
  · next heq =>
    rw [if_pos heq]
    simp only [hL1]
    split
    · next hcond =>
      dsimp only
      rw [wbL2List_append, wbL2List_l2_events, wbL2List_l2_events]
      simp
    · next hcond =>
      dsimp only
      rw [wbL2List_l2_events]
      simp

theorem memsys_l1_flow_wbL2_ifetch (sys : MemorySystem) (sel : L1Sel) (a : Nat)
    (iw : Bool) (core : Nat) (sm : Mode) (pp : DRAMPolicy)
    (cyc q1 q2 r1 r2 r3 : Nat) :
    wbL2List (memsys_l1_flow sys sel a iw true core sm pp cyc q1 q2 r1 r2 r3).2.2 = [] := by
  simp only [memsys_l1_flow]
  split
  · simp [wbL2List]
  · split
    · next hcond =>
      exact absurd hcond.1 (by simp)
    · dsimp only
      rw [wbL2List_l2_events]
      simp
theorem memsys_l2_access_l2cache_hit (sys : MemorySystem) (a : Nat) (wb : Bool)
    (core : Nat) (sm : Mode) (pp : DRAMPolicy) (cyc q1 q2 r : Nat)
    (h : (cache_access sys.l2cache a wb core cyc).2 = CacheResult.HIT) :
    (memsys_l2_access sys a wb core sm pp cyc q1 q2 r).1.l2cache =
      (cache_access sys.l2cache a wb core cyc).1 := by
  simp only [memsys_l2_access]
  split
  · rfl
  · next heq =>
    rw [h] at heq
    cases heq

theorem memsys_l2_access_l2cache_miss (sys : MemorySystem) (a : Nat) (wb : Bool)
    (core : Nat) (sm : Mode) (pp : DRAMPolicy) (cyc q1 q2 r : Nat)
    (h : (cache_access sys.l2cache a wb core cyc).2 = CacheResult.MISS) :
    (memsys_l2_access sys a wb core sm pp cyc q1 q2 r).1.l2cache =
      cache_install (cache_access sys.l2cache a wb core cyc).1 a wb core cyc q1 q2 r := by
  simp only [memsys_l2_access]
  split
  · next heq =>
    rw [h] at heq
    cases heq
  · split <;> rfl

theorem cache_access_write_bump (c : Cache) (a : Nat) (core cyc : Nat) :
    (cache_access c a true core cyc).1.stat_write_access = c.stat_write_access + 1 ∧
    ((cache_access c a true core cyc).2 = CacheResult.MISS →
      (cache_access c a true core cyc).1.stat_write_miss = c.stat_write_miss + 1) := by
  constructor
  · simp only [cache_access]
    split <;> rfl
  · simp only [cache_access]
    split
    · intro h
      simp at h
    · intro _
      rfl
/-- Claim C10: memsys_l2_access forwards its is_writeback flag as the write
flag of both the L2 lookup and the L2 install: on an L2 hit or miss the
resulting l2cache is exactly cache_access (resp. the following
cache_install) with that flag, and a writeback that misses the L2 bumps
stat_write_access and stat_write_miss by one and installs the line with
dirty = true (so the data is not dropped and a later eviction writes it to
DRAM). -/
theorem claim_C10 (sys : MemorySystem) (a : Nat) (wb : Bool) (core : Nat)
    (sm : Mode) (pp : DRAMPolicy) (cyc q1 q2 r : Nat) :
    ((cache_access sys.l2cache a wb core cyc).2 = CacheResult.HIT →
      (memsys_l2_access sys a wb core sm pp cyc q1 q2 r).1.l2cache =
        (cache_access sys.l2cache a wb core cyc).1) ∧
    ((cache_access sys.l2cache a wb core cyc).2 = CacheResult.MISS →
      (memsys_l2_access sys a wb core sm pp cyc q1 q2 r).1.l2cache =
        cache_install (cache_access sys.l2cache a wb core cyc).1 a wb core cyc q1 q2 r) ∧
    (wb = true → (cache_access sys.l2cache a wb core cyc).2 = CacheResult.MISS →
      (memsys_l2_access sys a wb core sm pp cyc q1 q2 r).1.l2cache.stat_write_access =
        sys.l2cache.stat_write_access + 1 ∧
      (memsys_l2_access sys a wb core sm pp cyc q1 q2 r).1.l2cache.stat_write_miss =
        sys.l2cache.stat_write_miss + 1 ∧
      (CacheWF sys.l2cache →
        ∃ i, i < sys.l2cache.ways ∧
          rowGet (setGet (memsys_l2_access sys a wb core sm pp cyc q1 q2 r).1.l2cache
            (a &&& sys.l2cache.index_mask)).row i =
            ⟨true, true, a >>> sys.l2cache.index_bits, core, cyc⟩)) := by
  refine ⟨memsys_l2_access_l2cache_hit sys a wb core sm pp cyc q1 q2 r,
    memsys_l2_access_l2cache_miss sys a wb core sm pp cyc q1 q2 r, ?_⟩
  intro hwb hm
  subst hwb
  have hres := memsys_l2_access_l2cache_miss sys a true core sm pp cyc q1 q2 r hm
  obtain ⟨i1, i2, i3, i4, i5, i6, i7, i8, i9, i10⟩ :=
    cache_install_fields (cache_access sys.l2cache a true core cyc).1 a true core cyc q1 q2 r
  obtain ⟨hwa, hwm⟩ := cache_access_write_bump sys.l2cache a core cyc
  refine ⟨by rw [hres, i9, hwa], by rw [hres, i10, hwm hm], ?_⟩
  intro hwf
  obtain ⟨f1, f2, f3, f4, f5, f6⟩ := cache_access_fields sys.l2cache a true core cyc
  obtain ⟨i, hilt, hline⟩ :=
    cache_install_creates (cache_access sys.l2cache a true core cyc).1 a true core cyc q1 q2 r
      (cache_access_wf sys.l2cache a true core cyc hwf)
  refine ⟨i, by rw [← f1]; exact hilt, ?_⟩
  rw [hres]
  rw [f4, f3] at hline
  exact hline

theorem claim_C10_witness :
    (memsys_l2_access c2sys0 5 true 0 Mode.C DRAMPolicy.OPEN_PAGE 1 0 0 0).1.l2cache.stat_write_access =
      c2sys0.l2cache.stat_write_access + 1 ∧
    (memsys_l2_access c2sys0 5 true 0 Mode.C DRAMPolicy.OPEN_PAGE 1 0 0 0).1.l2cache.stat_write_miss =
      c2sys0.l2cache.stat_write_miss + 1 ∧
    (∃ i, i < c2sys0.l2cache.ways ∧
      rowGet (setGet (memsys_l2_access c2sys0 5 true 0 Mode.C DRAMPolicy.OPEN_PAGE 1 0 0 0).1.l2cache
        (5 &&& c2sys0.l2cache.index_mask)).row i =
        ⟨true, true, 5 >>> c2sys0.l2cache.index_bits, 0, 1⟩) := by
  have h := (claim_C10 c2sys0 5 true 0 Mode.C DRAMPolicy.OPEN_PAGE 1 0 0 0).2.2 rfl (by decide)
  exact ⟨h.1, h.2.1, h.2.2 (by decide)⟩
/-- Claim C1 (amended): in modes B/C and D/E/F a LOAD or STORE whose L1
lookup misses issues exactly one L2 access with the writeback flag set iff
the line evicted by the following L1 install is valid and dirty, and the
writeback line address is the evicted address narrowed to 32 bits,
((tag <<< index_bits) mod 2^32) ||| ((line_addr &&& index_mask) mod 2^32),
not the untruncated (tag <<< index_bits) ||| (line_addr &&& index_mask);
an IFETCH never issues such a writeback; and an L2 install that evicts a
valid dirty line issues exactly one DRAM write, also at the evicted
address narrowed to 32 bits. -/
theorem claim_C1_amended :
    (∀ (sys : MemorySystem) (a core : Nat) (sm : Mode) (pp : DRAMPolicy)
        (cyc q1 q2 r1 r2 r3 : Nat) (typ : AccessType) (iw : Bool),
      (typ = AccessType.LOAD ∧ iw = false) ∨ (typ = AccessType.STORE ∧ iw = true) →
      wbL2List (memsys_access_modeBC sys a typ core sm pp cyc q1 q2 r1 r2 r3).2.2 =
        (if (cache_access sys.dcache a iw core cyc).2 = CacheResult.MISS then
          (if (cache_install (cache_access sys.dcache a iw core cyc).1 a iw core
                cyc q1 q2 r2).lastEvictedLine.valid = true ∧
              (cache_install (cache_access sys.dcache a iw core cyc).1 a iw core
                cyc q1 q2 r2).lastEvictedLine.dirty = true then
            [(((cache_install (cache_access sys.dcache a iw core cyc).1 a iw core
                  cyc q1 q2 r2).lastEvictedLine.tag <<<
                (cache_install (cache_access sys.dcache a iw core cyc).1 a iw core
                  cyc q1 q2 r2).index_bits) % U32) |||
              ((a &&& (cache_install (cache_access sys.dcache a iw core cyc).1 a iw
                  core cyc q1 q2 r2).index_mask) % U32)]
          else [])
        else [])) ∧
    (∀ (sys : MemorySystem) (a core : Nat) (sm : Mode) (pp : DRAMPolicy)
        (cyc q1 q2 r1 r2 r3 : Nat),
      wbL2List (memsys_access_modeBC sys a AccessType.IFETCH core sm pp cyc q1 q2
        r1 r2 r3).2.2 = []) ∧
    (∀ (sys : MemorySystem) (v core ls : Nat) (sm : Mode) (pp : DRAMPolicy)
        (cyc q1 q2 r1 r2 r3 : Nat) (typ : AccessType) (iw : Bool),
      (typ = AccessType.LOAD ∧ iw = false) ∨ (typ = AccessType.STORE ∧ iw = true) →
      core < sys.dcache_coreid.length →
      wbL2List (memsys_access_modeDEF sys v typ core ls sm pp cyc q1 q2 r1 r2 r3).2.2 =
        (if (cache_access (sys.dcache_coreid.getD core cacheDefault)
              (defPhysAddr v core ls) iw core cyc).2 = CacheResult.MISS then
          (if (cache_install (cache_access (sys.dcache_coreid.getD core cacheDefault)
                  (defPhysAddr v core ls) iw core cyc).1 (defPhysAddr v core ls) iw core
                cyc q1 q2 r2).lastEvictedLine.valid = true ∧
              (cache_install (cache_access (sys.dcache_coreid.getD core cacheDefault)
                  (defPhysAddr v core ls) iw core cyc).1 (defPhysAddr v core ls) iw core
                cyc q1 q2 r2).lastEvictedLine.dirty = true then
            [(((cache_install (cache_access (sys.dcache_coreid.getD core cacheDefault)
                    (defPhysAddr v core ls) iw core cyc).1 (defPhysAddr v core ls) iw core
                  cyc q1 q2 r2).lastEvictedLine.tag <<<
                (cache_install (cache_access (sys.dcache_coreid.getD core cacheDefault)
                    (defPhysAddr v core ls) iw core cyc).1 (defPhysAddr v core ls) iw core
                  cyc q1 q2 r2).index_bits) % U32) |||
              ((defPhysAddr v core ls &&&
                  (cache_install (cache_access (sys.dcache_coreid.getD core cacheDefault)
                      (defPhysAddr v core ls) iw core cyc).1 (defPhysAddr v core ls) iw
                    core cyc q1 q2 r2).index_mask) % U32)]
          else [])
        else [])) ∧
    (∀ (sys : MemorySystem) (v core ls : Nat) (sm : Mode) (pp : DRAMPolicy)
        (cyc q1 q2 r1 r2 r3 : Nat),
      wbL2List (memsys_access_modeDEF sys v AccessType.IFETCH core ls sm pp cyc q1 q2
        r1 r2 r3).2.2 = []) ∧
    (∀ (sys : MemorySystem) (a : Nat) (wb : Bool) (core : Nat) (sm : Mode)
        (pp : DRAMPolicy) (cyc q1 q2 r : Nat),
      dramWriteList (memsys_l2_access sys a wb core sm pp cyc q1 q2 r).2.2 =
        if (cache_access sys.l2cache a wb core cyc).2 = CacheResult.MISS then
          (if (cache_install (cache_access sys.l2cache a wb core cyc).1 a wb core
                cyc q1 q2 r).lastEvictedLine.valid = true ∧
              (cache_install (cache_access sys.l2cache a wb core cyc).1 a wb core
                cyc q1 q2 r).lastEvictedLine.dirty = true then
            [(((cache_install (cache_access sys.l2cache a wb core cyc).1 a wb core
                  cyc q1 q2 r).lastEvictedLine.tag <<<
                (cache_install (cache_access sys.l2cache a wb core cyc).1 a wb core
                  cyc q1 q2 r).index_bits) |||
              ((a &&& (cache_install (cache_access sys.l2cache a wb core cyc).1 a wb
                  core cyc q1 q2 r).index_mask) % U32)) % U32]
          else [])
        else []) := by
  refine ⟨?_, ?_, ?_, ?_, ?_⟩
  · intro sys a core sm pp cyc q1 q2 r1 r2 r3 typ iw h
    rcases h with ⟨ht, hw⟩ | ⟨ht, hw⟩ <;> subst ht <;> subst hw
    · have hL : (memsys_access_modeBC sys a AccessType.LOAD core sm pp cyc q1 q2
          r1 r2 r3).2.2 =
          (memsys_l1_flow sys L1Sel.dc a false false core sm pp cyc q1 q2 r1 r2 r3).2.2 :=
        rfl
      rw [hL, memsys_l1_flow_wbL2 sys L1Sel.dc a false false core sm pp cyc q1 q2
        r1 r2 r3 trivial]
      simp [getL1]
    · have hL : (memsys_access_modeBC sys a AccessType.STORE core sm pp cyc q1 q2
          r1 r2 r3).2.2 =
          (memsys_l1_flow sys L1Sel.dc a true false core sm pp cyc q1 q2 r1 r2 r3).2.2 :=
        rfl
      rw [hL, memsys_l1_flow_wbL2 sys L1Sel.dc a true false core sm pp cyc q1 q2
        r1 r2 r3 trivial]
      simp [getL1]
  · intro sys a core sm pp cyc q1 q2 r1 r2 r3
    have hL : (memsys_access_modeBC sys a AccessType.IFETCH core sm pp cyc q1 q2
        r1 r2 r3).2.2 =
        (memsys_l1_flow sys L1Sel.ic a false true core sm pp cyc q1 q2 r1 r2 r3).2.2 :=
      rfl
    rw [hL, memsys_l1_flow_wbL2_ifetch]
  · intro sys v core ls sm pp cyc q1 q2 r1 r2 r3 typ iw h hcore
    rcases h with ⟨ht, hw⟩ | ⟨ht, hw⟩ <;> subst ht <;> subst hw
    · have hL : (memsys_access_modeDEF sys v AccessType.LOAD core ls sm pp cyc q1 q2
          r1 r2 r3).2.2 =
          (memsys_l1_flow sys (L1Sel.dcCore core) (defPhysAddr v core ls) false false
            core sm pp cyc q1 q2 r1 r2 r3).2.2 :=
        rfl
      rw [hL, memsys_l1_flow_wbL2 sys (L1Sel.dcCore core) (defPhysAddr v core ls)
        false false core sm pp cyc q1 q2 r1 r2 r3 hcore]
      simp [getL1]
    · have hL : (memsys_access_modeDEF sys v AccessType.STORE core ls sm pp cyc q1 q2
          r1 r2 r3).2.2 =
          (memsys_l1_flow sys (L1Sel.dcCore core) (defPhysAddr v core ls) true false
            core sm pp cyc q1 q2 r1 r2 r3).2.2 :=
        rfl
      rw [hL, memsys_l1_flow_wbL2 sys (L1Sel.dcCore core) (defPhysAddr v core ls)
        true false core sm pp cyc q1 q2 r1 r2 r3 hcore]
      simp [getL1]
  · intro sys v core ls sm pp cyc q1 q2 r1 r2 r3
    have hL : (memsys_access_modeDEF sys v AccessType.IFETCH core ls sm pp cyc q1 q2
        r1 r2 r3).2.2 =
        (memsys_l1_flow sys (L1Sel.icCore core) (defPhysAddr v core ls) false true
          core sm pp cyc q1 q2 r1 r2 r3).2.2 :=
      rfl
    rw [hL, memsys_l1_flow_wbL2_ifetch]
  · intro sys a wb core sm pp cyc q1 q2 r
    exact dramWriteList_l2_events sys a wb core sm pp cyc q1 q2 r

theorem claim_C1_counterexample :
    (cache_access c1sys.dcache 0 false 0 1).2 = CacheResult.MISS ∧
    (cache_install (cache_access c1sys.dcache 0 false 0 1).1 0 false 0 1 0 0
      0).lastEvictedLine.valid = true ∧
    (cache_install (cache_access c1sys.dcache 0 false 0 1).1 0 false 0 1 0 0
      0).lastEvictedLine.dirty = true ∧
    wbL2List c1run.2.2 = [0] ∧
    (((cache_install (cache_access c1sys.dcache 0 false 0 1).1 0 false 0 1 0 0
        0).lastEvictedLine.tag <<<
      (cache_install (cache_access c1sys.dcache 0 false 0 1).1 0 false 0 1 0 0
        0).index_bits) |||
      (0 &&& (cache_install (cache_access c1sys.dcache 0 false 0 1).1 0 false 0 1 0 0
        0).index_mask)) = 4294967296 ∧
    wbL2List c1run.2.2 ≠
      [((cache_install (cache_access c1sys.dcache 0 false 0 1).1 0 false 0 1 0 0
          0).lastEvictedLine.tag <<<
        (cache_install (cache_access c1sys.dcache 0 false 0 1).1 0 false 0 1 0 0
          0).index_bits) |||
        (0 &&& (cache_install (cache_access c1sys.dcache 0 false 0 1).1 0 false 0 1 0 0
          0).index_mask)] := by
  decide

theorem claim_C1_witness :
    wbL2List (memsys_access_modeBC c1sys 0 AccessType.LOAD 0 Mode.C
      DRAMPolicy.OPEN_PAGE 1 0 0 0 0 0).2.2 =
      (if (cache_access c1sys.dcache 0 false 0 1).2 = CacheResult.MISS then
        (if (cache_install (cache_access c1sys.dcache 0 false 0 1).1 0 false 0
              1 0 0 0).lastEvictedLine.valid = true ∧
            (cache_install (cache_access c1sys.dcache 0 false 0 1).1 0 false 0
              1 0 0 0).lastEvictedLine.dirty = true then
          [(((cache_install (cache_access c1sys.dcache 0 false 0 1).1 0 false 0
                1 0 0 0).lastEvictedLine.tag <<<
              (cache_install (cache_access c1sys.dcache 0 false 0 1).1 0 false 0
                1 0 0 0).index_bits) % U32) |||
            ((0 &&& (cache_install (cache_access c1sys.dcache 0 false 0 1).1 0 false 0
                1 0 0 0).index_mask) % U32)]
        else [])
      else []) :=
  claim_C1_amended.1 c1sys 0 0 Mode.C DRAMPolicy.OPEN_PAGE 1 0 0 0 0 0
    AccessType.LOAD false (Or.inl ⟨rfl, rfl⟩)
